import Mathlib

/-!
A verification development for the request-to-query-to-document engine of a
JSON:API-style resource server (a Pyramid/SQLAlchemy collection-view layer).

The definitions below are a shallow embedding of the two source modules
(`pyramid_jsonapi/__init__.py` and `pyramid_jsonapi/collection_view_base.py`):

* query-parameter parsing (`collection_query_info`, `requested_include_names`,
  `bad_include_paths`, `related_limit`);
* pagination link construction (`pagination_links`);
* filter dispatch (`query_add_filtering`), with the filter clauses kept
  symbolic since the predicates themselves are executed by the backing store;
* the recursive serializer (`serialise_db_item` and the per-relationship body
  `processRel`), with the per-request included-object dictionary modelled as
  an insertion-ordered association list and backing-store round trips counted
  in a `queries` field;
* the standard access-control callback set (`acso_after_serialise_object`,
  `acso_after_get`) and the GET pipelines that run it;
* the write operations (PATCH, collection POST, DELETE, relationship
  POST/PATCH/DELETE) as traces of validation, session-mutation and flush
  events over an abstract store, where only a flush writes the backing store.

Python `int` values are embedded as `Int`; request parameters are taken
pre-parsed (an unparsable integer parameter raises in the source before any
of the logic modelled here runs).  String splitting is on single characters
throughout the source, so a structurally recursive single-character splitter
stands in for Python `str.split`.
-/

namespace PJapi

/-! ## String helpers (Python `str.split` on a single character, `'.'.join`) -/

/-- Split a character list on a separator character; mirrors Python
`str.split(sep)` for a one-character separator (`""` yields `[""]`,
trailing separators yield trailing empty components). -/
def splitCharsAux (sep : Char) : List Char → List Char → List String
  | [], acc => [String.mk acc.reverse]
  | c :: rest, acc =>
      if c = sep then String.mk acc.reverse :: splitCharsAux sep rest []
      else splitCharsAux sep rest (c :: acc)

/-- Python `s.split(sep)` for a single-character separator. -/
def splitOnChar (sep : Char) (s : String) : List String :=
  splitCharsAux sep s.data []

/-- Python `'.'.join(parts)`. -/
def joinDot : List String → String
  | [] => ""
  | [x] => x
  | x :: xs => x ++ "." ++ joinDot xs

/-- Python `set.add` on a set modelled as an insertion-ordered
duplicate-free list. -/
def setInsert (x : String) (l : List String) : List String :=
  if l.contains x then l else l ++ [x]

theorem mem_setInsert (x y : String) (l : List String) :
    y ∈ setInsert x l ↔ y = x ∨ y ∈ l := by
  unfold setInsert
  split
  · next h =>
    constructor
    · exact Or.inr
    · rintro (rfl | hy)
      · simpa using h
      · exact hy
  · simp [List.mem_append, or_comm]

/-! ## HTTP errors

The pyramid httpexceptions raised by the source, reduced to their status
code and detail string: HTTPBadRequest 400, HTTPForbidden 403, HTTPNotFound
404, HTTPNotAcceptable 406, HTTPConflict 409, HTTPUnsupportedMediaType 415,
HTTPFailedDependency 424. -/

structure HErr where
  status : Nat
  detail : String
deriving DecidableEq, Repr

/-! ## Query-info parser (`collection_query_info`)

The source reads `page[limit]`, `page[offset]` and `sort` from the request
parameter multidict.  The two paging parameters are passed through Python
`int()`; here they arrive pre-parsed as `Option Int` (`none` = parameter
absent). -/

structure QueryParams where
  pageLimit : Option Int
  pageOffset : Option Int
  sort : Option String

structure SortKey where
  key : String
  ascending : Bool
deriving DecidableEq, Repr

/-- One component of the `sort` parameter: a leading `-` means descending
(`sort_key[1:]` strips it), anything else is ascending. -/
def parseSortKey (s : String) : SortKey :=
  match s.data with
  | '-' :: rest => { key := String.mk rest, ascending := false }
  | _ => { key := s, ascending := true }

structure QueryInfo where
  pageLimit : Int
  pageOffset : Int
  sort : String
  sortKeys : List SortKey
deriving DecidableEq, Repr

/-- `collection_query_info`: page limit is
`min(max_limit, int(params.get('page[limit]', default_limit)))`, page offset
is `int(params.get('page[offset]', 0))`, the sort parameter defaults to the
key column name and is split on `,` into `_sort` entries. -/
def collection_query_info (maxLimit defaultLimit : Int) (keyColumnName : String)
    (p : QueryParams) : QueryInfo :=
  { pageLimit := min maxLimit (p.pageLimit.getD defaultLimit)
  , pageOffset := p.pageOffset.getD 0
  , sort := p.sort.getD keyColumnName
  , sortKeys := (splitOnChar ',' (p.sort.getD keyColumnName)).map parseSortKey }

/-! ## Pagination links (`pagination_links`)

Only the `page[offset]` value carried by each link matters to the spec; the
rest of each URL repeats the request's own parameters.  `count` is the
`available` total (`None` when unknown).  Python `//` is floor division,
embedded as `Int.fdiv`. -/

structure PagLinks where
  first : Int
  next : Option Int
  prev : Option Int
  last : Option Int
deriving DecidableEq, Repr

def pagination_links (offset limit : Int) (count : Option Int) : PagLinks :=
  let nextOffset := offset + limit
  { first := 0
  , next :=
      match count with
      | none => some nextOffset
      | some c => if nextOffset < c then some nextOffset else none
  , prev :=
      if offset > 0 then
        some (if offset - limit < 0 then 0 else offset - limit)
      else none
  , last := count.map (fun c => (Int.fdiv (max (c - 1) 0) limit) * limit) }

/-! ## Filtering (`query_add_filtering`)

A `filter[<colspec>:<op>]=<value>` parameter is stored in `_filters` as
`{colspec, op, value}` (`colspec` already split on `.`).  The dispatch below
produces one symbolic filter clause per parameter — the actual comparison is
executed by the backing store (SQLAlchemy column operators), so only the
clause shape is modelled.  `like`/`ilike` first rewrite every `*` in the
value to `%` (the store's wildcard character); an unrecognised operator
raises HTTPBadRequest. -/

structure FilterInfo where
  colspec : List String
  op : String
  value : String
deriving DecidableEq, Repr

/-- Symbolic filter clause appended to the query. -/
inductive FilterPred
  | eq (col : String) (v : String)
  | ne (col : String) (v : String)
  | startswith (col : String) (v : String)
  | endswith (col : String) (v : String)
  | contains (col : String) (v : String)
  | lt (col : String) (v : String)
  | gt (col : String) (v : String)
  | le (col : String) (v : String)
  | ge (col : String) (v : String)
  | like (col : String) (pattern : String)
  | ilike (col : String) (pattern : String)
deriving DecidableEq, Repr

/-- Python `re.sub(r'\*', '%', val)`. -/
def starToPercent (s : String) : String :=
  String.mk (s.data.map (fun c => if c = '*' then '%' else c))

/-- The dispatch of `query_add_filtering`, one `_filters` entry at a time;
`colspec[0]` names the column.  Transcribed from the if/elif chain of the
source. -/
def query_add_filtering (filters : List FilterInfo) (q : List FilterPred) :
    Except HErr (List FilterPred) :=
  match filters with
  | [] => Except.ok q
  | f :: rest =>
      let col := f.colspec.headD ""
      if f.op = "eq" then query_add_filtering rest (q ++ [FilterPred.eq col f.value])
      else if f.op = "ne" then query_add_filtering rest (q ++ [FilterPred.ne col f.value])
      else if f.op = "startswith" then
        query_add_filtering rest (q ++ [FilterPred.startswith col f.value])
      else if f.op = "endswith" then
        query_add_filtering rest (q ++ [FilterPred.endswith col f.value])
      else if f.op = "contains" then
        query_add_filtering rest (q ++ [FilterPred.contains col f.value])
      else if f.op = "lt" then query_add_filtering rest (q ++ [FilterPred.lt col f.value])
      else if f.op = "gt" then query_add_filtering rest (q ++ [FilterPred.gt col f.value])
      else if f.op = "le" then query_add_filtering rest (q ++ [FilterPred.le col f.value])
      else if f.op = "ge" then query_add_filtering rest (q ++ [FilterPred.ge col f.value])
      else if f.op = "like" then
        query_add_filtering rest (q ++ [FilterPred.like col (starToPercent f.value)])
      else if f.op = "ilike" then
        query_add_filtering rest (q ++ [FilterPred.ilike col (starToPercent f.value)])
      else Except.error { status := 400, detail := "No such filter operator" }

/-- The operator table as the spec states it: `op` maps to the corresponding
predicate, `like`/`ilike` rewrite `*` to the wildcard in the value, any other
operator is unsupported (`none`).  Written from the spec's words, to be
compared against `query_add_filtering`. -/
def specFilterClause (col : String) (op : String) (value : String) : Option FilterPred :=
  if op = "eq" then some (FilterPred.eq col value)
  else if op = "ne" then some (FilterPred.ne col value)
  else if op = "lt" then some (FilterPred.lt col value)
  else if op = "gt" then some (FilterPred.gt col value)
  else if op = "le" then some (FilterPred.le col value)
  else if op = "ge" then some (FilterPred.ge col value)
  else if op = "startswith" then some (FilterPred.startswith col value)
  else if op = "endswith" then some (FilterPred.endswith col value)
  else if op = "contains" then some (FilterPred.contains col value)
  else if op = "like" then some (FilterPred.like col (starToPercent value))
  else if op = "ilike" then some (FilterPred.ilike col (starToPercent value))
  else none

/-- The spec's operator set. -/
def validFilterOps : List String :=
  ["eq", "ne", "lt", "gt", "le", "ge", "startswith", "endswith", "contains", "like", "ilike"]

/-! ## Include-path validation (`requested_include_names`, `bad_include_paths`)

The relationship graph consumed here is the per-collection `relationships`
mapping built at startup: `schema c r = some t` when collection `c` declares
relationship `r` targeting collection `t`. -/

/-- `requested_include_names`: every dotted prefix of every comma-separated
include path, accumulated into a set. -/
def addIncludeNames (inc : List String) (i : String) : List String :=
  ((splitOnChar '.' i).foldl
    (fun (st : List String × List String) name =>
      let curname := st.1 ++ [name]
      (curname, setInsert (joinDot curname) st.2))
    ([], inc)).2

def requested_include_names (param : Option String) : List String :=
  match param with
  | none => []
  | some p => (splitOnChar ',' p).foldl addIncludeNames []

/-- State of the `bad_include_paths` walk along one dotted path:
the prefix walked so far, the view (collection) reached, whether an
undeclared segment has been hit, and the accumulated bad set. -/
structure IncWalk where
  curname : List String
  curcoll : String
  tainted : Bool
  bad : List String

def includeStep (schema : String → String → Option String) (st : IncWalk)
    (name : String) : IncWalk :=
  let curname := st.curname ++ [name]
  if st.tainted then
    { st with curname := curname, bad := setInsert (joinDot curname) st.bad }
  else
    match schema st.curcoll name with
    | some target => { st with curname := curname, curcoll := target }
    | none =>
        { curname := curname, curcoll := st.curcoll, tainted := true
        , bad := setInsert (joinDot curname) st.bad }

/-- `bad_include_paths`: walk each comma-separated dotted path segment by
segment through the relationship graph; once a segment is not a declared
relationship, that prefix and every longer prefix of the path is added to
the bad set. -/
def bad_include_paths (schema : String → String → Option String) (coll : String)
    (param : Option String) : List String :=
  match param with
  | none => []
  | some p =>
      (splitOnChar ',' p).foldl
        (fun bad i =>
          ((splitOnChar '.' i).foldl (includeStep schema)
            { curname := [], curcoll := coll, tainted := false, bad := bad }).bad)
        []

/-- Resolving a chain of relationship names from a collection:
`some c'` is the collection reached, `none` means some segment is not a
declared relationship of the collection reached before it. -/
def chainColl (schema : String → String → Option String) :
    String → List String → Option String
  | c, [] => some c
  | c, n :: rest =>
      match schema c n with
      | some t => chainColl schema t rest
      | none => none

/-- The `jsonapi_view` decorator, up to the bad-include-path guard: a request
with media-type parameters is rejected 415, a jsonapi accept entry with
parameters 406, and any bad include path aborts the whole request with 400
before the wrapped view method runs. -/
def jsonapiView {α : Type} (hasMediaParams acceptBad : Bool)
    (schema : String → String → Option String) (coll : String)
    (includeParam : Option String) (handler : Unit → α) : Except HErr α :=
  if hasMediaParams then
    Except.error { status := 415, detail := "Media Type parameters not allowed" }
  else if acceptBad then
    Except.error { status := 406, detail := "application/vnd.api+json must appear with no parameters" }
  else if bad_include_paths schema coll includeParam ≠ [] then
    Except.error { status := 400, detail := "Bad include paths" }
  else Except.ok (handler ())

/-! ## Serializer (`serialise_db_item`, `collection_return`)

The declared schema (one `RelInfo` per relationship), the backing store, and
the request's sparse-field / include / paging parameters are bundled below.
`RelDir.toMany` stands for the ONETOMANY and MANYTOMANY directions (which
the source treats identically when serialising), `RelDir.toOne` for
MANYTOONE.  A resource identifier is a `(type, id)` pair.  The relationship
block keeps the `meta.direction` and `meta.results` bookkeeping plus the
`data` member; `data = none` models the `data` key being absent from the
dictionary, as opposed to `some RelData.null` which models `data: null`.
Link URLs (built by pyramid `route_url`) are left out: they are opaque
strings produced by an external collaborator. -/

inductive RelDir
  | toMany
  | toOne
deriving DecidableEq, Repr

structure RelInfo where
  target : String
  dir : RelDir
deriving DecidableEq, Repr

abbrev Ident := String × String

inductive RelData
  | null
  | ident (i : Ident)
  | idents (l : List Ident)
deriving DecidableEq, Repr

structure RelBlock where
  direction : RelDir
  resultsLimit : Option Int
  resultsAvailable : Option Nat
  resultsReturned : Option Nat
  data : Option RelData
deriving DecidableEq, Repr

structure ErrEntry where
  code : Nat
  title : String
  detail : String
deriving DecidableEq, Repr

structure MetaObj where
  errors : Option (List ErrEntry)
  forbiddenFields : Option (List String)
deriving DecidableEq, Repr

/-- A serialised resource object.  `attributes`, `relationships` and `meta`
are `Option`s because the corresponding dictionary keys may be absent (the
access-control callback returns a reduced object with only type, id and
meta). -/
structure SObj where
  rtype : String
  id : String
  attributes : Option (List (String × Option String))
  relationships : Option (List (String × RelBlock))
  meta : Option MetaObj
deriving DecidableEq, Repr

/-- Per-request serializer context: the startup-time schema plus the
request's parameters. -/
structure SerCtx where
  schemaRels : String → List (String × RelInfo)
  attributeNames : String → List String
  fieldsParam : String → Option String
  includeParam : Option String
  pageParams : String → Option Int
  defaultLimit : Int
  maxLimit : Int

/-- The backing store, at the granularity the serializer consumes it:
the rows of each collection, attribute values, the related rows of a
to-many relationship of a row, and the locally stored foreign-key value of
a to-one relationship of a row. -/
structure Store where
  rows : String → List String
  attr : String → String → String → Option String
  manyRelated : String → String → String → List String
  oneFk : String → String → String → Option String

/-- The single related row fetched by `related_query(...).one()` for a
MANYTOONE relationship: the target row whose key equals the stored
foreign-key value, when that row exists. -/
def Store.oneFetch (s : Store) (coll key itemId target : String) : Option String :=
  (s.oneFk coll key itemId).bind
    (fun fk => if (s.rows target).contains fk then some fk else none)

/-- Mutable per-request serializer state: the included-object dictionary
keyed by `(type, id)` and the number of backing-store round trips executed
(each `q.count()`, `q.all()`, `q.one()`). -/
structure SState where
  included : List (Ident × SObj)
  queries : Nat
deriving DecidableEq, Repr

/-- Python dict assignment `included[k] = v`: overwrite the entry if the key
is present, append it otherwise (dicts preserve insertion order). -/
def dictInsert (k : Ident) (v : SObj) (m : List (Ident × SObj)) :
    List (Ident × SObj) :=
  if (m.map Prod.fst).contains k then
    m.map (fun p => if p.1 = k then (k, v) else p)
  else m ++ [(k, v)]

/-- `requested_field_names`: the `fields[<type>]` parameter split on `,`,
the empty string meaning no fields, absence meaning every attribute and
relationship of the schema. -/
def requested_field_names (ctx : SerCtx) (coll : String) : List String :=
  match ctx.fieldsParam coll with
  | none => ctx.attributeNames coll ++ (ctx.schemaRels coll).map Prod.fst
  | some p => if p = "" then [] else splitOnChar ',' p

/-- Keys of `requested_relationships`: schema relationships restricted to
the requested field names. -/
def requestedRelNames (ctx : SerCtx) (coll : String) : List String :=
  ((ctx.schemaRels coll).filter
    (fun kv => (requested_field_names ctx coll).contains kv.1)).map Prod.fst

/-- Keys of `requested_attributes`. -/
def requestedAttrNames (ctx : SerCtx) (coll : String) : List String :=
  (ctx.attributeNames coll).filter
    (fun k => (requested_field_names ctx coll).contains k)

/-- `related_limit`: look up `limit.relationships.<relname>`, then
`limit.relationships`, then `limit` in the `_page` parameters, falling back
to the default limit, and cap the result at the configured maximum. -/
def related_limit (ctx : SerCtx) (relKey : String) : Int :=
  let cand :=
    match ctx.pageParams ("limit.relationships." ++ relKey) with
    | some v => v
    | none =>
        match ctx.pageParams "limit.relationships" with
        | some v => v
        | none =>
            match ctx.pageParams "limit" with
            | some v => v
            | none => ctx.defaultLimit
  min cand ctx.maxLimit

/-- The `for ritem in q.all()` loop of the to-many branch: append one
resource identifier per row and, when the relationship path is a requested
include, recursively serialise the row and insert it into the included
dictionary keyed by `(type, id)`. -/
def serialiseManyRows
    (recurse : String → String → List String → SState → SObj × SState)
    (target : String) (childPath : List String) (isIncluded : Bool) :
    List String → SState → List Ident × SState
  | [], st => ([], st)
  | rid :: rest, st =>
      let st1 :=
        if isIncluded then
          let r := recurse target rid childPath st
          { r.2 with included := dictInsert (target, rid) r.1 r.2.included }
        else st
      let r2 := serialiseManyRows recurse target childPath isIncluded rest st1
      ((target, rid) :: r2.1, r2.2)

/-- The body of the `for key, rel in self.relationships.items()` loop of
`serialise_db_item`, for one relationship.  Returns the relationship block
when the key is in the requested field set (only those blocks are retained
in the output), `none` otherwise; a relationship that is neither a requested
field nor on a requested include path is skipped with no effect.  The
related-rows query object is built before the branch in the source, but it
is only ever executed (counted in `queries`) where `.count()`, `.all()` or
`.one()` appear. -/
def processRel (ctx : SerCtx) (store : Store)
    (recurse : String → String → List String → SState → SObj × SState)
    (coll itemId : String) (includePath : List String)
    (key : String) (rel : RelInfo) (st : SState) : Option RelBlock × SState :=
  let relPathStr := joinDot (includePath ++ [key])
  let incNames := requested_include_names ctx.includeParam
  let reqRels := requestedRelNames ctx coll
  if !reqRels.contains key && !incNames.contains relPathStr then (none, st)
  else
    let isIncluded := incNames.contains relPathStr
    let retain := fun (b : RelBlock) => if reqRels.contains key then some b else none
    match rel.dir with
    | RelDir.toMany =>
        let fullRows := store.manyRelated coll key itemId
        let limit := related_limit ctx key
        let rows := fullRows.take limit.toNat
        let r := serialiseManyRows recurse rel.target (includePath ++ [key])
          isIncluded rows { st with queries := st.queries + 2 }
        (retain { direction := RelDir.toMany
                , resultsLimit := some limit
                , resultsAvailable := some fullRows.length
                , resultsReturned := some r.1.length
                , data := some (RelData.idents r.1) }, r.2)
    | RelDir.toOne =>
        if isIncluded then
          let st1 := { st with queries := st.queries + 1 }
          match store.oneFetch coll key itemId rel.target with
          | none =>
              (retain { direction := RelDir.toOne, resultsLimit := none
                      , resultsAvailable := none, resultsReturned := none
                      , data := some RelData.null }, st1)
          | some rid =>
              let r := recurse rel.target rid (includePath ++ [key]) st1
              (retain { direction := RelDir.toOne, resultsLimit := none
                      , resultsAvailable := none, resultsReturned := none
                      , data := none },
               { r.2 with included := dictInsert (rel.target, rid) r.1 r.2.included })
        else
          (retain { direction := RelDir.toOne, resultsLimit := none
                  , resultsAvailable := none, resultsReturned := none
                  , data := some
                      (match store.oneFk coll key itemId with
                       | none => RelData.null
                       | some fk => RelData.ident (rel.target, fk)) }, st)

/-- The relationship loop of `serialise_db_item`. -/
def serialiseRels (ctx : SerCtx) (store : Store)
    (recurse : String → String → List String → SState → SObj × SState)
    (coll itemId : String) (includePath : List String) :
    List (String × RelInfo) → SState → List (String × RelBlock) × SState
  | [], st => ([], st)
  | (key, rel) :: rest, st =>
      let r := processRel ctx store recurse coll itemId includePath key rel st
      let r2 := serialiseRels ctx store recurse coll itemId includePath rest r.2
      (match r.1 with
       | some b => (key, b) :: r2.1
       | none => r2.1, r2.2)

/-- The body of `serialise_db_item` with the recursive call abstracted. -/
def serialiseDbItemF (ctx : SerCtx) (store : Store)
    (recurse : String → String → List String → SState → SObj × SState)
    (coll itemId : String) (includePath : List String) (st : SState) :
    SObj × SState :=
  let atts := (requestedAttrNames ctx coll).map (fun k => (k, store.attr coll itemId k))
  let r := serialiseRels ctx store recurse coll itemId includePath
    (ctx.schemaRels coll) st
  ({ rtype := coll, id := itemId, attributes := some atts
   , relationships := some r.1, meta := none }, r.2)

/-- `serialise_db_item`, with fuel bounding the include recursion depth.
In the source the recursion is bounded because each recursive call extends
`include_path` by one segment and only paths in the finite requested-include
set recurse; any fuel at least that depth gives the source's behaviour.
With no fuel the item is reduced to its type and id. -/
def serialise_db_item (ctx : SerCtx) (store : Store) :
    Nat → String → String → List String → SState → SObj × SState
  | 0, coll, itemId, _, st =>
      ({ rtype := coll, id := itemId, attributes := none
       , relationships := none, meta := none }, st)
  | fuel + 1, coll, itemId, includePath, st =>
      serialiseDbItemF ctx store
        (fun a b c d => serialise_db_item ctx store fuel a b c d)
        coll itemId includePath st

/-- The `data` loop of `collection_return`: serialise every row of the page
into one shared `included` dictionary. -/
def collectionSerialise (ctx : SerCtx) (store : Store) (fuel : Nat)
    (coll : String) : List String → SState → List SObj × SState
  | [], st => ([], st)
  | i :: rest, st =>
      let r := serialise_db_item ctx store fuel coll i [] st
      let r2 := collectionSerialise ctx store fuel coll rest r.2
      (r.1 :: r2.1, r2.2)

structure CollectionDoc where
  data : List SObj
  included : Option (List SObj)
deriving DecidableEq, Repr

/-- `collection_return` for a full-object collection response: the primary
data serialised with a fresh empty `included` dictionary, and, when any
include was requested, the `included` array listing the dictionary's
values. -/
def collection_return (ctx : SerCtx) (store : Store) (fuel : Nat)
    (coll : String) (items : List String) : CollectionDoc :=
  let r := collectionSerialise ctx store fuel coll items { included := [], queries := 0 }
  { data := r.1
  , included :=
      if requested_include_names ctx.includeParam = [] then none
      else some (r.2.included.map Prod.snd) }

/-! ## Standard access-control callback set
(`acso_after_serialise_object`, `acso_after_get`)

The view data the two callbacks consult: the allowed-fields set for the
current action, the requested field names, and the per-object authorization
predicate `allowed_object`. -/

structure AcsoView where
  allowedFields : List String
  requestedFieldNames : List String
  allowedObject : SObj → Bool

/-- One pass of the attribute/relationship filtering loop: keep entries
whose name is allowed, add the others to the forbidden set. -/
def filterFields {α : Type} (allowed : List String) :
    List (String × α) → List String → List (String × α) × List String
  | [], forb => ([], forb)
  | kv :: rest, forb =>
      if allowed.contains kv.1 then
        let r := filterFields allowed rest forb
        (kv :: r.1, r.2)
      else filterFields allowed rest (setInsert kv.1 forb)

/-- `acso_after_serialise_object`: an allowed object keeps only allowed
attributes/relationships and lists every forbidden requested field under
`meta.forbidden_fields`; a denied object is replaced by the reduced
`{type, id, meta.errors:[{403, Forbidden, ...}]}` form. -/
def acso_after_serialise_object (view : AcsoView) (obj : SObj) : SObj :=
  if view.allowedObject obj then
    let ra :=
      match obj.attributes with
      | none => (none, ([] : List String))
      | some l =>
          let r := filterFields view.allowedFields l []
          (some r.1, r.2)
    let rr :=
      match obj.relationships with
      | none => (none, ra.2)
      | some l =>
          let r := filterFields view.allowedFields l ra.2
          (some r.1, r.2)
    let forb := view.requestedFieldNames.foldl
      (fun acc n => if view.allowedFields.contains n then acc else setInsert n acc) rr.2
    let m0 := obj.meta.getD { errors := none, forbiddenFields := none }
    { obj with
        attributes := ra.1
        relationships := rr.1
        meta := some { m0 with forbiddenFields := some forb } }
  else
    { rtype := obj.rtype, id := obj.id, attributes := none, relationships := none
    , meta := some
        { errors := some
            [{ code := 403, title := "Forbidden"
             , detail := "No permission to view " ++ obj.rtype ++ "/" ++ obj.id ++ "." }]
        , forbiddenFields := none } }

/-- A single-resource response document, as `acso_after_get` sees it. -/
structure SingleDoc where
  data : SObj
deriving DecidableEq, Repr

/-- `acso_after_get`: look up `data.meta.errors` (a missing key returns the
document unchanged) and raise HTTPForbidden at the first entry whose code
is 403. -/
def acso_after_get (_view : AcsoView) (ret : SingleDoc) : Except HErr SingleDoc :=
  match ret.data.meta with
  | none => Except.ok ret
  | some m =>
      match m.errors with
      | none => Except.ok ret
      | some errs =>
          match errs.find? (fun e => e.code == 403) with
          | some e => Except.error { status := 403, detail := e.detail }
          | none => Except.ok ret

/-- The `callback_sets['access_control_serialised_objects']` registration
table: which lifecycle points the standard access-control set hooks.  There
is no `after_collection_get` entry — collection results are never aborted by
this set. -/
structure CallbackSet where
  after_serialise_object : Option (AcsoView → SObj → SObj)
  after_get : Option (AcsoView → SingleDoc → Except HErr SingleDoc)
  after_collection_get : Option (AcsoView → List SObj → Except HErr (List SObj))

def accessControlSet : CallbackSet :=
  { after_serialise_object := some acso_after_serialise_object
  , after_get := some acso_after_get
  , after_collection_get := none }

def applyObjHook (cs : CallbackSet) (view : AcsoView) (obj : SObj) : SObj :=
  match cs.after_serialise_object with
  | some f => f view obj
  | none => obj

/-- The single-item GET pipeline: the serialised object goes through the
`after_serialise_object` hooks (end of `serialise_db_item`), then the
document through the `after_get` hooks (end of `get`). -/
def getPipeline (cs : CallbackSet) (view : AcsoView) (obj : SObj) :
    Except HErr SingleDoc :=
  let doc : SingleDoc := { data := applyObjHook cs view obj }
  match cs.after_get with
  | some f => f view doc
  | none => Except.ok doc

/-- The collection GET pipeline: each serialised object goes through the
`after_serialise_object` hooks, then the data list through the
`after_collection_get` hooks (end of `collection_get`). -/
def collectionPipeline (cs : CallbackSet) (view : AcsoView) (objs : List SObj) :
    Except HErr (List SObj) :=
  let dataList := objs.map (applyObjHook cs view)
  match cs.after_collection_get with
  | some f => f view dataList
  | none => Except.ok dataList

/-! ## Write operations as event traces
(`patch`, `collection_post`, `delete`, `relationships_post`,
`relationships_patch`, `relationships_delete`)

Each operation is embedded as the sequence of externally meaningful events
it performs, in source order: `validate` (a request-validation check that
passed), `vfail` (a check that failed, raising the HTTP error whose status
is recorded — the operation stops there), `mutate` (a session mutation:
`merge`, `setattr` on a session-held object, `add`, relationship
extend/remove), `flush` (the session flush; the backing store is written
only here).  The session runs one transaction per operation, so an
operation whose trace contains no `flush` leaves the backing store
unchanged. -/

inductive WEv
  | validate (what : String)
  | vfail (status : Nat) (what : String)
  | mutate (what : String)
  | flush
deriving DecidableEq, Repr

def isValidationEv : WEv → Bool
  | WEv.validate _ => true
  | WEv.vfail _ _ => true
  | _ => false

def isMutationEv : WEv → Bool
  | WEv.mutate _ => true
  | WEv.flush => true
  | _ => false

/-- The ordering property the spec asserts of every write operation: no
mutation event is ever followed by a validation event, i.e. all validation
happens before any mutation is attempted. -/
def validationsPrecedeMutations (tr : List WEv) : Prop :=
  tr.Pairwise (fun a b => (isMutationEv a && isValidationEv b) = false)

instance (tr : List WEv) : Decidable (validationsPrecedeMutations tr) := by
  unfold validationsPrecedeMutations
  exact List.instDecidablePairwise tr

/-- The outcome of `db_session.flush()`: clean, or an integrity-constraint
violation reported by the backing store. -/
inductive FlushRes
  | ok
  | integrityError (msg : String)
deriving DecidableEq, Repr

/-- The write-side view data: the collection name and the declared
relationships (name, target collection, direction). -/
structure WriteView where
  collectionName : String
  relationships : List (String × RelInfo)

/-- Row existence in the write-side store, per collection. -/
structure WriteStore where
  existsIn : String → String → Bool

/-- One relationship value in a PATCH body: `null`, a single resource
identifier (whose id may be missing), or a list of resource identifiers
(where the source checks only ids, not types). -/
inductive RelPatch
  | nullify
  | single (rtype : String) (rid : Option String)
  | many (rids : List String)
deriving DecidableEq, Repr

structure PatchReq where
  urlId : String
  dataType : String
  dataId : Option String
  rels : List (String × RelPatch)

/-- The inner loop of the PATCH list branch: each listed related item must
exist (404 otherwise); the relationship is assigned after the loop. -/
def patchManySteps (store : WriteStore) (target : String) :
    List String → List WEv × Bool
  | [] => ([WEv.mutate "setattr relationship"], true)
  | r :: rest =>
      if store.existsIn target r then
        let t := patchManySteps store target rest
        (WEv.validate "related item exists" :: t.1, t.2)
      else ([WEv.vfail 404 "related item exists"], false)

/-- The relationship loop of PATCH, run after the merge. -/
def patchRelSteps (view : WriteView) (store : WriteStore) :
    List (String × RelPatch) → List WEv × Bool
  | [] => ([], true)
  | (relname, rp) :: rest =>
      match view.relationships.lookup relname with
      | none => ([WEv.vfail 404 "relationship exists"], false)
      | some rel =>
          let body : List WEv × Bool :=
            match rp with
            | RelPatch.nullify => ([WEv.mutate "setattr relationship"], true)
            | RelPatch.single t rid =>
                if t ≠ rel.target then
                  ([WEv.vfail 409 "resource identifier type"], false)
                else
                  match rid with
                  | none => ([WEv.validate "resource identifier type",
                              WEv.vfail 400 "resource identifier id"], false)
                  | some r =>
                      if store.existsIn rel.target r then
                        ([WEv.validate "resource identifier type",
                          WEv.validate "related item exists",
                          WEv.mutate "setattr relationship"], true)
                      else ([WEv.validate "resource identifier type",
                             WEv.vfail 404 "related item exists"], false)
            | RelPatch.many rids => patchManySteps store rel.target rids
          let evs := WEv.validate "relationship exists" :: body.1
          if body.2 then
            let t := patchRelSteps view store rest
            (evs ++ t.1, t.2)
          else (evs, false)

/-- `patch`: existence, type and id validation, then `db_session.merge`
(staging the attribute update in the session), then the relationship loop
with its own validation, then the flush.  Returns the event trace and
whether the request succeeded. -/
def patchTrace (view : WriteView) (store : WriteStore) (req : PatchReq) :
    List WEv × Bool :=
  if ¬ store.existsIn view.collectionName req.urlId then
    ([WEv.vfail 404 "object exists"], false)
  else
    let e1 := [WEv.validate "object exists"]
    if req.dataType ≠ view.collectionName then
      (e1 ++ [WEv.vfail 409 "type matches URL"], false)
    else
      let e2 := e1 ++ [WEv.validate "type matches URL"]
      if req.dataId ≠ some req.urlId then
        (e2 ++ [WEv.vfail 409 "id matches URL"], false)
      else
        let e3 := e2 ++ [WEv.validate "id matches URL", WEv.mutate "merge"]
        let r := patchRelSteps view store req.rels
        if r.2 then (e3 ++ r.1 ++ [WEv.flush], true)
        else (e3 ++ r.1, false)

structure PostReq where
  hasId : Bool
  dataType : String
  relNames : List String

/-- The relationship loop of `collection_post`: every relationship named in
the body must be declared (404 otherwise); related rows are looked up and
assigned onto the not-yet-added item (inside `no_autoflush`, not a session
mutation). -/
def postRelSteps (view : WriteView) : List String → List WEv × Bool
  | [] => ([], true)
  | rn :: rest =>
      match view.relationships.lookup rn with
      | none => ([WEv.vfail 404 "relationship exists"], false)
      | some _ =>
          let t := postRelSteps view rest
          (WEv.validate "relationship exists" :: t.1, t.2)

/-- `collection_post`: client-id and type validation, relationship-name
validation while building the detached item, then `add` + `flush`; an
IntegrityError from the flush is converted to HTTPConflict (status 409). -/
def collectionPostTrace (view : WriteView) (allowClientIds : Bool)
    (req : PostReq) (fr : FlushRes) : List WEv × Except HErr Unit :=
  if !allowClientIds && req.hasId then
    ([WEv.vfail 403 "client id"],
     Except.error { status := 403, detail := "Client generated ids are not supported." })
  else
    let e1 := [WEv.validate "client id"]
    if req.dataType ≠ view.collectionName then
      (e1 ++ [WEv.vfail 409 "type supported"],
       Except.error { status := 409, detail := "Unsupported type" })
    else
      let e2 := e1 ++ [WEv.validate "type supported"]
      let r := postRelSteps view req.relNames
      if r.2 then
        match fr with
        | FlushRes.ok => (e2 ++ r.1 ++ [WEv.mutate "add", WEv.flush], Except.ok ())
        | FlushRes.integrityError m =>
            (e2 ++ r.1 ++ [WEv.mutate "add", WEv.flush],
             Except.error { status := 409, detail := m })
      else (e2 ++ r.1, Except.error { status := 404, detail := "No relationship in collection" })

structure DeleteResult where
  trace : List WEv
  result : Except HErr (Option Ident)
  rows : List String
deriving Repr

/-- `delete`: fetch the item by id; a missing item returns a success
document with `data: null` and touches nothing; an existing item is deleted
and flushed (an IntegrityError becomes HTTPFailedDependency 424, and the
aborted transaction leaves the rows unchanged), returning the deleted
item's resource identifier as `data`. -/
def deleteOp (coll : String) (rows : List String) (reqId : String)
    (fr : FlushRes) : DeleteResult :=
  if rows.contains reqId then
    match fr with
    | FlushRes.ok =>
        { trace := [WEv.mutate "delete", WEv.flush]
        , result := Except.ok (some (coll, reqId))
        , rows := rows.erase reqId }
    | FlushRes.integrityError m =>
        { trace := [WEv.mutate "delete", WEv.flush]
        , result := Except.error { status := 424, detail := m }
        , rows := rows }
  else { trace := [], result := Except.ok none, rows := rows }

/-- The resource-identifier type checks of the relationship write
operations: every identifier's type must equal the relationship's
collection name (409 otherwise). -/
def residTypeSteps (target : String) : List Ident → List WEv × Bool
  | [] => ([], true)
  | resid :: rest =>
      if resid.1 ≠ target then ([WEv.vfail 409 "resource identifier type"], false)
      else
        let t := residTypeSteps target rest
        (WEv.validate "resource identifier type" :: t.1, t.2)

/-- `relationships_post` (TOMANY only): relationship must exist and not be
TOONE, identifier types must match, then extend + flush; an IntegrityError
becomes HTTPFailedDependency 424. -/
def relationships_post (view : WriteView) (relname : String) (data : List Ident)
    (fr : FlushRes) : List WEv × Except HErr Unit :=
  match view.relationships.lookup relname with
  | none =>
      ([WEv.vfail 404 "relationship exists"],
       Except.error { status := 404, detail := "No relationship " ++ relname })
  | some rel =>
      if rel.dir = RelDir.toOne then
        ([WEv.validate "relationship exists", WEv.vfail 404 "not TOONE"],
         Except.error { status := 404, detail := "Cannot POST to TOONE relationship link." })
      else
        let r := residTypeSteps rel.target data
        let base := WEv.validate "relationship exists" :: r.1
        if r.2 then
          match fr with
          | FlushRes.ok => (base ++ [WEv.mutate "extend", WEv.flush], Except.ok ())
          | FlushRes.integrityError m =>
              (base ++ [WEv.mutate "extend", WEv.flush],
               Except.error { status := 424, detail := m })
        else
          (base, Except.error { status := 409
                              , detail := "Resource identifier type does not match relationship type." })

/-- A relationship value in a relationships PATCH body. -/
inductive RelValue
  | nullv
  | one (resid : Ident)
  | many (resids : List Ident)
deriving DecidableEq, Repr

/-- `relationships_patch`: dispatches on the relationship's direction.  The
MANYTOONE branch assigns and returns without any flush of its own; the
TOMANY branch type-checks every identifier, assigns, and flushes (424 on
IntegrityError).  A body whose shape does not match the direction crashes
in the source (unhandled TypeError), modelled as status 500. -/
def relationships_patch (view : WriteView) (relname : String) (body : RelValue)
    (fr : FlushRes) : List WEv × Except HErr Unit :=
  match view.relationships.lookup relname with
  | none =>
      ([WEv.vfail 404 "relationship exists"],
       Except.error { status := 404, detail := "No relationship " ++ relname })
  | some rel =>
      if rel.dir = RelDir.toOne then
        match body with
        | RelValue.nullv =>
            ([WEv.validate "relationship exists", WEv.mutate "setattr relationship"],
             Except.ok ())
        | RelValue.one resid =>
            if resid.1 ≠ rel.target then
              ([WEv.validate "relationship exists", WEv.vfail 409 "resource identifier type"],
               Except.error { status := 409
                            , detail := "Resource identifier type does not match relationship type." })
            else
              ([WEv.validate "relationship exists", WEv.validate "resource identifier type",
                WEv.mutate "setattr relationship"], Except.ok ())
        | RelValue.many _ =>
            ([WEv.validate "relationship exists"],
             Except.error { status := 500, detail := "TypeError" })
      else
        match body with
        | RelValue.many resids =>
            let r := residTypeSteps rel.target resids
            let base := WEv.validate "relationship exists" :: r.1
            if r.2 then
              match fr with
              | FlushRes.ok =>
                  (base ++ [WEv.mutate "setattr relationship", WEv.flush], Except.ok ())
              | FlushRes.integrityError m =>
                  (base ++ [WEv.mutate "setattr relationship", WEv.flush],
                   Except.error { status := 424, detail := m })
            else
              (base, Except.error { status := 409
                                  , detail := "Resource identifier type does not match relationship type." })
        | _ =>
            ([WEv.validate "relationship exists"],
             Except.error { status := 500, detail := "TypeError" })

/-- `relationships_delete` (TOMANY only): relationship must exist and not
be TOONE; each listed identifier is type-checked and removed (removing an
absent member is silently ignored), then the flush (424 on
IntegrityError). -/
def relsDeleteSteps (target : String) : List Ident → List WEv × Bool
  | [] => ([], true)
  | resid :: rest =>
      if resid.1 ≠ target then ([WEv.vfail 409 "resource identifier type"], false)
      else
        let t := relsDeleteSteps target rest
        (WEv.validate "resource identifier type" :: WEv.mutate "remove" :: t.1, t.2)

def relationships_delete (view : WriteView) (relname : String) (data : List Ident)
    (fr : FlushRes) : List WEv × Except HErr Unit :=
  match view.relationships.lookup relname with
  | none =>
      ([WEv.vfail 404 "relationship exists"],
       Except.error { status := 404, detail := "No relationship " ++ relname })
  | some rel =>
      if rel.dir = RelDir.toOne then
        ([WEv.validate "relationship exists", WEv.vfail 404 "not TOONE"],
         Except.error { status := 404, detail := "Cannot DELETE to TOONE relationship link." })
      else
        let r := relsDeleteSteps rel.target data
        let base := WEv.validate "relationship exists" :: r.1
        if r.2 then
          match fr with
          | FlushRes.ok => (base ++ [WEv.flush], Except.ok ())
          | FlushRes.integrityError m =>
              (base ++ [WEv.flush], Except.error { status := 424, detail := m })
        else
          (base, Except.error { status := 409
                              , detail := "Resource identifier type does not match relationship type." })

/-! ## Theorems -/

/-! ### C2 — query-info invariants -/

theorem splitCharsAux_no_sep (sep : Char) :
    ∀ (l acc : List Char), (∀ c ∈ l, c ≠ sep) →
      splitCharsAux sep l acc = [String.mk (acc.reverse ++ l)]
  | [], acc, _ => by simp [splitCharsAux]
  | c :: rest, acc, h => by
      have hc : c ≠ sep := h c (List.mem_cons_self c rest)
      have ih := splitCharsAux_no_sep sep rest (c :: acc)
        (fun x hx => h x (List.mem_cons_of_mem c hx))
      simp only [splitCharsAux, if_neg hc, ih, List.reverse_cons, List.append_assoc,
        List.singleton_append]

theorem string_mk_data (s : String) : String.mk s.data = s := rfl

theorem splitOnChar_no_sep (sep : Char) (s : String)
    (h : ∀ c ∈ s.data, c ≠ sep) : splitOnChar sep s = [s] := by
  unfold splitOnChar
  rw [splitCharsAux_no_sep sep s.data [] h]
  simp [string_mk_data]

theorem parseSortKey_of_not_dash (s : String) (h : s.data.head? ≠ some '-') :
    parseSortKey s = { key := s, ascending := true } := by
  unfold parseSortKey
  split
  · next rest heq => exact absurd (by rw [heq]; rfl) h
  · rfl

/-- C2 counterexample: the spec claims the parsed page limit is clamped to
the interval [0, configured max], but `min(max_limit, requested)` does not
clamp below: a requested `page[limit]=-5` yields a parsed limit of −5,
outside [0, 100]. -/
theorem C2_counterexample :
    (collection_query_info 100 10 "id"
        { pageLimit := some (-5), pageOffset := none, sort := none }).pageLimit = -5 ∧
    ¬ (0 ≤ (collection_query_info 100 10 "id"
        { pageLimit := some (-5), pageOffset := none, sort := none }).pageLimit) := by
  decide

/-- C2 (amended): the parsed page limit equals
`min(configured max, requested-or-default)` — in particular it never exceeds
the configured maximum even when the client requests a larger value, though
it is not clamped below at 0 — the page offset defaults to 0 when
`page[offset]` is absent, and the sort defaults to the key field ascending
when `sort` is absent. -/
theorem C2_query_info (maxL defL : Int) (keyName : String) (p : QueryParams) :
    (collection_query_info maxL defL keyName p).pageLimit ≤ maxL ∧
    (collection_query_info maxL defL keyName p).pageLimit
      = min maxL (p.pageLimit.getD defL) ∧
    (p.pageOffset = none → (collection_query_info maxL defL keyName p).pageOffset = 0) ∧
    (p.sort = none → (∀ c ∈ keyName.data, c ≠ ',') → keyName.data.head? ≠ some '-' →
      (collection_query_info maxL defL keyName p).sortKeys
        = [{ key := keyName, ascending := true }]) := by
  refine ⟨min_le_left _ _, rfl, ?_, ?_⟩
  · intro h
    simp [collection_query_info, h]
  · intro hs hc hd
    simp only [collection_query_info, hs, Option.getD_none]
    rw [splitOnChar_no_sep ',' keyName hc]
    simp [parseSortKey_of_not_dash keyName hd]

/-- C2 witness: with max 100, default 10, key column `id` and no parameters,
the parsed info is limit 10, offset 0, sort `id` ascending. -/
theorem C2_query_info_witness :
    (collection_query_info 100 10 "id"
        { pageLimit := none, pageOffset := none, sort := none }).pageLimit = 10 ∧
    (collection_query_info 100 10 "id"
        { pageLimit := none, pageOffset := none, sort := none }).pageOffset = 0 ∧
    (collection_query_info 100 10 "id"
        { pageLimit := none, pageOffset := none, sort := none }).sortKeys
      = [{ key := "id", ascending := true }] := by
  have h := C2_query_info 100 10 "id"
    { pageLimit := none, pageOffset := none, sort := none }
  exact ⟨h.2.1.trans (by decide), h.2.2.1 rfl, h.2.2.2 rfl (by decide) (by decide)⟩

/-! ### C3 — pagination links -/

/-- C3 counterexample: with `available = 0` (an empty collection) and
`limit = 10`, the code's `last` link has offset 0, while the spec's formula
`floor((available-1)/limit)*limit` gives −10; the claim's formula is wrong
for `available = 0`. -/
theorem C3_counterexample :
    (pagination_links 0 10 (some 0)).last = some 0 ∧
    Int.fdiv (0 - 1) 10 * 10 = -10 ∧
    (some (0 : Int) ≠ some (-10 : Int)) := by
  decide

/-- C3 (amended): for every collection response with total count
`available` and positive limit, the links include `first` with offset 0;
`next` is present iff `offset+limit < available` (with offset
`offset+limit`); `prev` is present iff `offset > 0` (with offset
`max(offset-limit, 0)`); and `last` has offset
`floor(max(available-1, 0)/limit)*limit` — the dividend is clamped at 0, so
an empty collection gets `last` offset 0 rather than a negative offset. -/
theorem C3_pagination_links (offset limit available : Int) (_hl : 0 < limit) :
    (pagination_links offset limit (some available)).first = 0 ∧
    ((pagination_links offset limit (some available)).next =
      if offset + limit < available then some (offset + limit) else none) ∧
    ((pagination_links offset limit (some available)).prev =
      if 0 < offset then some (max (offset - limit) 0) else none) ∧
    ((pagination_links offset limit (some available)).last =
      some (Int.fdiv (max (available - 1) 0) limit * limit)) := by
  have hmax : (if offset - limit < 0 then (0 : Int) else offset - limit)
      = max (offset - limit) 0 := by
    rcases le_or_lt 0 (offset - limit) with h | h
    · rw [if_neg (not_lt.mpr h), max_eq_left h]
    · rw [if_pos h, max_eq_right (le_of_lt h)]
  refine ⟨rfl, rfl, ?_, rfl⟩
  simp only [pagination_links, gt_iff_lt]
  rw [hmax]

/-- C3 witness: the spec's worked example — available 25, limit 10,
offset 10 — yields first 0, next 20, prev 0, last 20. -/
theorem C3_pagination_links_witness :
    (pagination_links 10 10 (some 25)).first = 0 ∧
    (pagination_links 10 10 (some 25)).next = some 20 ∧
    (pagination_links 10 10 (some 25)).prev = some 0 ∧
    (pagination_links 10 10 (some 25)).last = some 20 := by
  have h := C3_pagination_links 10 10 25 (by decide)
  refine ⟨h.1, ?_, ?_, ?_⟩
  · rw [h.2.1]; decide
  · rw [h.2.2.1]; decide
  · rw [h.2.2.2]; decide

/-! ### C8 — filter operator dispatch -/

theorem specFilterClause_isSome_iff (c op v : String) :
    (specFilterClause c op v).isSome = true ↔ op ∈ validFilterOps := by
  unfold specFilterClause
  by_cases h1 : op = "eq"
  · rw [h1]; exact iff_of_true rfl (by decide)
  rw [if_neg h1]
  by_cases h2 : op = "ne"
  · rw [h2]; exact iff_of_true rfl (by decide)
  rw [if_neg h2]
  by_cases h3 : op = "lt"
  · rw [h3]; exact iff_of_true rfl (by decide)
  rw [if_neg h3]
  by_cases h4 : op = "gt"
  · rw [h4]; exact iff_of_true rfl (by decide)
  rw [if_neg h4]
  by_cases h5 : op = "le"
  · rw [h5]; exact iff_of_true rfl (by decide)
  rw [if_neg h5]
  by_cases h6 : op = "ge"
  · rw [h6]; exact iff_of_true rfl (by decide)
  rw [if_neg h6]
  by_cases h7 : op = "startswith"
  · rw [h7]; exact iff_of_true rfl (by decide)
  rw [if_neg h7]
  by_cases h8 : op = "endswith"
  · rw [h8]; exact iff_of_true rfl (by decide)
  rw [if_neg h8]
  by_cases h9 : op = "contains"
  · rw [h9]; exact iff_of_true rfl (by decide)
  rw [if_neg h9]
  by_cases h10 : op = "like"
  · rw [h10]; exact iff_of_true rfl (by decide)
  rw [if_neg h10]
  by_cases h11 : op = "ilike"
  · rw [h11]; exact iff_of_true rfl (by decide)
  rw [if_neg h11]
  exact iff_of_false (by simp)
    (by simp [validFilterOps, h1, h2, h3, h4, h5, h6, h7, h8, h9, h10, h11])

/-- C8: one step of `query_add_filtering` agrees with the spec's operator
table: an operator in the table appends the corresponding predicate (with
`like`/`ilike` first rewriting every `*` in the value to `%`), and any other
operator fails the request with HTTP 400. -/
theorem C8_filter_operators (f : FilterInfo) (fs : List FilterInfo) (q : List FilterPred) :
    (query_add_filtering (f :: fs) q =
      match specFilterClause (f.colspec.headD "") f.op f.value with
      | some p => query_add_filtering fs (q ++ [p])
      | none => Except.error { status := 400, detail := "No such filter operator" }) ∧
    (f.op ∈ validFilterOps ↔ ∃ q', query_add_filtering [f] q = Except.ok q') ∧
    (f.op = "like" →
      query_add_filtering [f] q =
        Except.ok (q ++ [FilterPred.like (f.colspec.headD "") (starToPercent f.value)])) ∧
    (f.op = "ilike" →
      query_add_filtering [f] q =
        Except.ok (q ++ [FilterPred.ilike (f.colspec.headD "") (starToPercent f.value)])) ∧
    (f.op ∉ validFilterOps →
      query_add_filtering (f :: fs) q =
        Except.error { status := 400, detail := "No such filter operator" }) := by
  have hstep : ∀ (fs' : List FilterInfo) (q' : List FilterPred),
      query_add_filtering (f :: fs') q' =
        match specFilterClause (f.colspec.headD "") f.op f.value with
        | some p => query_add_filtering fs' (q' ++ [p])
        | none => Except.error { status := 400, detail := "No such filter operator" } := by
    intro fs' q'
    simp only [query_add_filtering, specFilterClause]
    by_cases h1 : f.op = "eq"
    · rw [h1]; rfl
    by_cases h2 : f.op = "ne"
    · rw [h2]; rfl
    by_cases h3 : f.op = "startswith"
    · rw [h3]; rfl
    by_cases h4 : f.op = "endswith"
    · rw [h4]; rfl
    by_cases h5 : f.op = "contains"
    · rw [h5]; rfl
    by_cases h6 : f.op = "lt"
    · rw [h6]; rfl
    by_cases h7 : f.op = "gt"
    · rw [h7]; rfl
    by_cases h8 : f.op = "le"
    · rw [h8]; rfl
    by_cases h9 : f.op = "ge"
    · rw [h9]; rfl
    by_cases h10 : f.op = "like"
    · rw [h10]; rfl
    by_cases h11 : f.op = "ilike"
    · rw [h11]; rfl
    simp only [if_neg h1, if_neg h2, if_neg h3, if_neg h4, if_neg h5, if_neg h6,
      if_neg h7, if_neg h8, if_neg h9, if_neg h10, if_neg h11]
  refine ⟨hstep fs q, ?_, ?_, ?_, ?_⟩
  · rw [← specFilterClause_isSome_iff (f.colspec.headD "") f.op f.value]
    rw [show query_add_filtering [f] q = _ from hstep [] q]
    constructor
    · intro h
      rcases Option.isSome_iff_exists.mp h with ⟨p, hp⟩
      exact ⟨q ++ [p], by rw [hp]; rfl⟩
    · intro ⟨q', hq'⟩
      by_contra hnone
      rw [Option.not_isSome_iff_eq_none.mp (fun hh => hnone hh)] at hq'
      exact Except.noConfusion hq'
  · intro hl
    rw [hstep [] q]
    simp [specFilterClause, hl, query_add_filtering]
  · intro hl
    rw [hstep [] q]
    simp [specFilterClause, hl, query_add_filtering]
  · intro hop
    rw [hstep fs q]
    have : specFilterClause (f.colspec.headD "") f.op f.value = none := by
      rcases hsc : specFilterClause (f.colspec.headD "") f.op f.value with _ | p
      · rfl
      · exact absurd (specFilterClause_isSome_iff _ _ _ |>.mp (by rw [hsc]; rfl)) hop
    rw [this]

/-- C8 witness: `filter[name:like]=*red*` appends a like-clause on `%red%`,
and `filter[name:bogus]=x` fails with HTTP 400. -/
theorem C8_filter_operators_witness :
    query_add_filtering [{ colspec := ["name"], op := "like", value := "*red*" }] [] =
      Except.ok [FilterPred.like "name" "%red%"] ∧
    query_add_filtering [{ colspec := ["name"], op := "bogus", value := "x" }] [] =
      Except.error { status := 400, detail := "No such filter operator" } := by
  constructor
  · have h := (C8_filter_operators { colspec := ["name"], op := "like", value := "*red*" } [] []).2.2.1 rfl
    exact h.trans (congrArg Except.ok (by decide))
  · exact (C8_filter_operators { colspec := ["name"], op := "bogus", value := "x" } [] []).2.2.2.2
      (by decide)

/-! ### C10 — DELETE of a missing item -/

/-- C10: deleting an id that is not in the collection raises no error: it
returns a success document with `data: null` and leaves the store unchanged
(no event at all, in particular no flush); only when the item exists is the
row deleted and the deleted item's resource identifier returned as
`data`. -/
theorem C10_delete (coll : String) (rows : List String) (reqId : String) (fr : FlushRes) :
    (rows.contains reqId = false →
      deleteOp coll rows reqId fr =
        { trace := [], result := Except.ok none, rows := rows }) ∧
    (rows.contains reqId = true → fr = FlushRes.ok →
      (deleteOp coll rows reqId fr).result = Except.ok (some (coll, reqId)) ∧
      (deleteOp coll rows reqId fr).rows = rows.erase reqId) := by
  constructor
  · intro h
    have h' : ¬ reqId ∈ rows := by simpa using h
    simp [deleteOp, h']
  · intro h hfr
    subst hfr
    have h' : reqId ∈ rows := by simpa using h
    simp [deleteOp, h']

/-- C10 witness: deleting `3` from `["1", "2"]` returns `data: null` with
the rows untouched; deleting `1` returns the identifier `("people", "1")`
and removes the row. -/
theorem C10_delete_witness :
    deleteOp "people" ["1", "2"] "3" FlushRes.ok =
      { trace := [], result := Except.ok none, rows := ["1", "2"] } ∧
    (deleteOp "people" ["1", "2"] "1" FlushRes.ok).result =
      Except.ok (some ("people", "1")) ∧
    (deleteOp "people" ["1", "2"] "1" FlushRes.ok).rows = ["2"] := by
  have h1 := (C10_delete "people" ["1", "2"] "3" FlushRes.ok).1 (by decide)
  have h2 := (C10_delete "people" ["1", "2"] "1" FlushRes.ok).2 (by decide) rfl
  exact ⟨h1, h2.1, h2.2.trans (by decide)⟩

/-! ### C4 — access-control callbacks -/

/-- C4: a row denied by the standard access-control hook set is, as a
single top-level resource, turned into a reduced object whose
`meta.errors` carries code 403, which `after_get` then escalates to an
overall Forbidden failure; inside a collection result no hook aborts (the
standard set registers nothing at `after_collection_get`), so the caller
receives the per-item reduced `{type, id, meta.errors}` placeholder while
the rest of the collection is returned normally. -/
theorem C4_access_control (view : AcsoView) (obj : SObj) (objs : List SObj)
    (hden : view.allowedObject obj = false) :
    getPipeline accessControlSet view obj =
      Except.error
        { status := 403,
          detail := "No permission to view " ++ obj.rtype ++ "/" ++ obj.id ++ "." } ∧
    collectionPipeline accessControlSet view objs =
      Except.ok (objs.map (acso_after_serialise_object view)) ∧
    acso_after_serialise_object view obj =
      { rtype := obj.rtype, id := obj.id, attributes := none, relationships := none,
        meta := some
          { errors := some
              [{ code := 403, title := "Forbidden",
                 detail := "No permission to view " ++ obj.rtype ++ "/" ++ obj.id ++ "." }],
            forbiddenFields := none } } := by
  have hred : acso_after_serialise_object view obj =
      { rtype := obj.rtype, id := obj.id, attributes := none, relationships := none,
        meta := some
          { errors := some
              [{ code := 403, title := "Forbidden",
                 detail := "No permission to view " ++ obj.rtype ++ "/" ++ obj.id ++ "." }],
            forbiddenFields := none } } := by
    unfold acso_after_serialise_object
    rw [hden]
    simp
  refine ⟨?_, rfl, hred⟩
  show acso_after_get view { data := acso_after_serialise_object view obj } = _
  rw [hred]
  rfl

/-- C4 witness: with an authorization predicate denying id `2`, fetching the
denied person aborts with 403 while a collection containing it returns with
the reduced placeholder in place. -/
theorem C4_access_control_witness :
    getPipeline accessControlSet
      { allowedFields := ["name"], requestedFieldNames := ["name"],
        allowedObject := fun o => !(o.id == "2") }
      { rtype := "people", id := "2", attributes := some [("name", some "alice")],
        relationships := some [], meta := none } =
      Except.error { status := 403, detail := "No permission to view people/2." } ∧
    collectionPipeline accessControlSet
      { allowedFields := ["name"], requestedFieldNames := ["name"],
        allowedObject := fun o => !(o.id == "2") }
      [ { rtype := "people", id := "1", attributes := some [("name", some "bob")],
          relationships := some [], meta := none },
        { rtype := "people", id := "2", attributes := some [("name", some "alice")],
          relationships := some [], meta := none } ] =
      Except.ok
        [ { rtype := "people", id := "1", attributes := some [("name", some "bob")],
            relationships := some [],
            meta := some { errors := none, forbiddenFields := some [] } },
          { rtype := "people", id := "2", attributes := none, relationships := none,
            meta := some
              { errors := some
                  [{ code := 403, title := "Forbidden",
                     detail := "No permission to view people/2." }],
                forbiddenFields := none } } ] := by
  have h := C4_access_control
    { allowedFields := ["name"], requestedFieldNames := ["name"],
      allowedObject := fun o => !(o.id == "2") }
    { rtype := "people", id := "2", attributes := some [("name", some "alice")],
      relationships := some [], meta := none }
    [ { rtype := "people", id := "1", attributes := some [("name", some "bob")],
        relationships := some [], meta := none },
      { rtype := "people", id := "2", attributes := some [("name", some "alice")],
        relationships := some [], meta := none } ]
    rfl
  exact ⟨h.1, h.2.1.trans rfl⟩

/-! ### C5 — validation before mutation -/

theorem patchManySteps_no_flush (store : WriteStore) (target : String) :
    ∀ rids : List String, WEv.flush ∉ (patchManySteps store target rids).1
  | [] => by simp [patchManySteps]
  | r :: rest => by
      have ih := patchManySteps_no_flush store target rest
      by_cases h : store.existsIn target r
      · simp [patchManySteps, h, ih]
      · simp [patchManySteps, h]

theorem patchRelSteps_no_flush (view : WriteView) (store : WriteStore) :
    ∀ rels : List (String × RelPatch), WEv.flush ∉ (patchRelSteps view store rels).1
  | [] => by simp [patchRelSteps]
  | (relname, rp) :: rest => by
      have ih := patchRelSteps_no_flush view store rest
      cases hl : view.relationships.lookup relname with
      | none => simp [patchRelSteps, hl]
      | some rel =>
          cases rp with
          | nullify => simp [patchRelSteps, hl, ih]
          | single t rid =>
              by_cases ht : t = rel.target
              · cases rid with
                | none => simp [patchRelSteps, hl, ht]
                | some r =>
                    by_cases he : store.existsIn rel.target r
                    · simp [patchRelSteps, hl, ht, he, ih]
                    · simp [patchRelSteps, hl, ht, he]
              · simp [patchRelSteps, hl, ht]
          | many rids =>
              have hm := patchManySteps_no_flush store rel.target rids
              by_cases hok : (patchManySteps store rel.target rids).2
              · simp [patchRelSteps, hl, hok, hm, ih]
              · simp [patchRelSteps, hl, hok, hm]

theorem patchTrace_no_flush_of_fail (v : WriteView) (s : WriteStore) (preq : PatchReq)
    (hfail : (patchTrace v s preq).2 = false) :
    WEv.flush ∉ (patchTrace v s preq).1 := by
  simp only [patchTrace] at hfail ⊢
  by_cases h1 : ¬ s.existsIn v.collectionName preq.urlId = true
  · rw [if_pos h1]; simp
  rw [if_neg h1] at hfail ⊢
  by_cases h2 : preq.dataType ≠ v.collectionName
  · rw [if_pos h2]; simp
  rw [if_neg h2] at hfail ⊢
  by_cases h3 : preq.dataId ≠ some preq.urlId
  · rw [if_pos h3]; simp
  rw [if_neg h3] at hfail ⊢
  by_cases h4 : (patchRelSteps v s preq.rels).2 = true
  · rw [if_pos h4] at hfail
    simp at hfail
  · rw [if_neg h4]
    simp [patchRelSteps_no_flush v s preq.rels]

theorem vpm_of_no_mutation {l : List WEv} (h : ∀ e ∈ l, isMutationEv e = false) :
    validationsPrecedeMutations l := by
  induction l with
  | nil => exact List.Pairwise.nil
  | cons a t ih =>
      refine List.Pairwise.cons ?_ (ih (fun e he => h e (List.mem_cons_of_mem a he)))
      intro b _
      rw [h a (List.mem_cons_self a t)]
      rfl

theorem vpm_append (l1 l2 : List WEv) (h1 : ∀ e ∈ l1, isMutationEv e = false)
    (h2 : validationsPrecedeMutations l2) :
    validationsPrecedeMutations (l1 ++ l2) := by
  rw [validationsPrecedeMutations, List.pairwise_append]
  exact ⟨vpm_of_no_mutation h1, h2, fun a ha b _ => by rw [h1 a ha]; rfl⟩

theorem postRelSteps_no_mutation (v : WriteView) :
    ∀ rns : List String, ∀ e ∈ (postRelSteps v rns).1, isMutationEv e = false
  | [], e, he => by simp [postRelSteps] at he
  | rn :: rest, e, he => by
      have ih := postRelSteps_no_mutation v rest
      cases hl : v.relationships.lookup rn with
      | none =>
          simp [postRelSteps, hl] at he
          subst he; rfl
      | some rel =>
          simp [postRelSteps, hl] at he
          rcases he with rfl | he
          · rfl
          · exact ih e he

theorem postRelSteps_no_flush (v : WriteView) (rns : List String) :
    WEv.flush ∉ (postRelSteps v rns).1 := by
  intro hf
  simpa [isMutationEv] using postRelSteps_no_mutation v rns WEv.flush hf

theorem postRelSteps_ok_no_vfail (v : WriteView) :
    ∀ rns : List String, (postRelSteps v rns).2 = true →
      ∀ c w, WEv.vfail c w ∉ (postRelSteps v rns).1
  | [], _, c, w => by simp [postRelSteps]
  | rn :: rest, hok, c, w => by
      cases hl : v.relationships.lookup rn with
      | none => simp [postRelSteps, hl] at hok
      | some rel =>
          have hok' : (postRelSteps v rest).2 = true := by
            simpa [postRelSteps, hl] using hok
          have ih := postRelSteps_ok_no_vfail v rest hok' c w
          simp [postRelSteps, hl, ih]

theorem collectionPost_vpm (v : WriteView) (allow : Bool) (req : PostReq)
    (fr : FlushRes) :
    validationsPrecedeMutations (collectionPostTrace v allow req fr).1 := by
  simp only [collectionPostTrace]
  by_cases h1 : (!allow && req.hasId) = true
  · rw [if_pos h1]
    exact vpm_of_no_mutation (by intro e he; simp at he; subst he; rfl)
  rw [if_neg h1]
  by_cases h2 : req.dataType ≠ v.collectionName
  · rw [if_pos h2]
    refine vpm_of_no_mutation ?_
    intro e he
    simp at he
    rcases he with rfl | rfl <;> rfl
  rw [if_neg h2]
  by_cases hr : (postRelSteps v req.relNames).2 = true
  · rw [if_pos hr]
    have hval : ∀ e ∈ ([WEv.validate "client id"] ++ [WEv.validate "type supported"])
        ++ (postRelSteps v req.relNames).1, isMutationEv e = false := by
      intro e he
      rcases List.mem_append.mp he with he | he
      · simp at he
        rcases he with rfl | rfl <;> rfl
      · exact postRelSteps_no_mutation v req.relNames e he
    have htail : validationsPrecedeMutations [WEv.mutate "add", WEv.flush] := by decide
    have happ := vpm_append
      (([WEv.validate "client id"] ++ [WEv.validate "type supported"])
        ++ (postRelSteps v req.relNames).1)
      [WEv.mutate "add", WEv.flush] hval htail
    cases fr
    · exact happ
    · exact happ
  · rw [if_neg hr]
    refine vpm_of_no_mutation ?_
    intro e he
    rcases List.mem_append.mp he with he | he
    · rcases List.mem_append.mp he with he | he <;>
        (simp at he; subst he; rfl)
    · exact postRelSteps_no_mutation v req.relNames e he

theorem collectionPost_fail_no_flush (v : WriteView) (allow : Bool) (req : PostReq)
    (fr : FlushRes)
    (h : ∃ c w, WEv.vfail c w ∈ (collectionPostTrace v allow req fr).1) :
    WEv.flush ∉ (collectionPostTrace v allow req fr).1 := by
  obtain ⟨c, w, hmem⟩ := h
  simp only [collectionPostTrace] at hmem ⊢
  by_cases h1 : (!allow && req.hasId) = true
  · rw [if_pos h1]; simp
  rw [if_neg h1] at hmem ⊢
  by_cases h2 : req.dataType ≠ v.collectionName
  · rw [if_pos h2]; simp
  rw [if_neg h2] at hmem ⊢
  by_cases hr : (postRelSteps v req.relNames).2 = true
  · rw [if_pos hr] at hmem
    exfalso
    have hnv := postRelSteps_ok_no_vfail v req.relNames hr c w
    cases fr <;> simp [hnv] at hmem
  · rw [if_neg hr]
    simp [postRelSteps_no_flush v req.relNames]

/-- C5 counterexample: a PATCH carrying one relationship whose name is not
declared passes the existence/type/id validation, attempts the session
`merge` mutation, and only then fails the relationship validation — so the
claim that all validation precedes any mutation attempt is false for
PATCH. -/
theorem C5_counterexample :
    (patchTrace
        { collectionName := "posts",
          relationships := [("author", { target := "people", dir := RelDir.toOne })] }
        { existsIn := fun c i => c == "posts" && i == "1" }
        { urlId := "1", dataType := "posts", dataId := some "1",
          rels := [("bogus", RelPatch.nullify)] }).1 =
      [WEv.validate "object exists", WEv.validate "type matches URL",
       WEv.validate "id matches URL", WEv.mutate "merge",
       WEv.vfail 404 "relationship exists"] ∧
    ¬ validationsPrecedeMutations
      (patchTrace
        { collectionName := "posts",
          relationships := [("author", { target := "people", dir := RelDir.toOne })] }
        { existsIn := fun c i => c == "posts" && i == "1" }
        { urlId := "1", dataType := "posts", dataId := some "1",
          rels := [("bogus", RelPatch.nullify)] }).1 := by
  constructor
  · decide
  · decide

/-- C5 (amended): a write request that fails validation never reaches the
flush, so the backing store is unchanged; for collection POST every
validation event does precede every session mutation; for PATCH, however,
the `merge` mutation is attempted before relationship validation (see the
counterexample), so only the no-partial-side-effects half of the claim
holds there. -/
theorem C5_write_validation (v : WriteView) (s : WriteStore) (preq : PatchReq)
    (allow : Bool) (postReq : PostReq) (fr : FlushRes) :
    ((patchTrace v s preq).2 = false → WEv.flush ∉ (patchTrace v s preq).1) ∧
    validationsPrecedeMutations (collectionPostTrace v allow postReq fr).1 ∧
    ((∃ c w, WEv.vfail c w ∈ (collectionPostTrace v allow postReq fr).1) →
      WEv.flush ∉ (collectionPostTrace v allow postReq fr).1) :=
  ⟨patchTrace_no_flush_of_fail v s preq, collectionPost_vpm v allow postReq fr,
   collectionPost_fail_no_flush v allow postReq fr⟩

/-- C5 witness: a PATCH of a nonexistent id fails with no flush in its
trace, and a plain POST's trace orders all validation before mutation. -/
theorem C5_write_validation_witness :
    WEv.flush ∉ (patchTrace
      { collectionName := "posts",
        relationships := [("author", { target := "people", dir := RelDir.toOne })] }
      { existsIn := fun c i => c == "posts" && i == "1" }
      { urlId := "9", dataType := "posts", dataId := some "9", rels := [] }).1 ∧
    validationsPrecedeMutations
      (collectionPostTrace
        { collectionName := "posts",
          relationships := [("author", { target := "people", dir := RelDir.toOne })] }
        true { hasId := false, dataType := "posts", relNames := [] } FlushRes.ok).1 := by
  have h := C5_write_validation
    { collectionName := "posts",
      relationships := [("author", { target := "people", dir := RelDir.toOne })] }
    { existsIn := fun c i => c == "posts" && i == "1" }
    { urlId := "9", dataType := "posts", dataId := some "9", rels := [] }
    true { hasId := false, dataType := "posts", relNames := [] } FlushRes.ok
  exact ⟨h.1 (by decide), h.2.1⟩

/-! ### C6 — integrity-constraint violations on writes -/

theorem residTypeSteps_no_flush (target : String) :
    ∀ l : List Ident, WEv.flush ∉ (residTypeSteps target l).1
  | [] => by simp [residTypeSteps]
  | resid :: rest => by
      have ih := residTypeSteps_no_flush target rest
      by_cases h : resid.1 = target
      · simp [residTypeSteps, h, ih]
      · simp [residTypeSteps, h]

theorem relsDeleteSteps_no_flush (target : String) :
    ∀ l : List Ident, WEv.flush ∉ (relsDeleteSteps target l).1
  | [] => by simp [relsDeleteSteps]
  | resid :: rest => by
      have ih := relsDeleteSteps_no_flush target rest
      by_cases h : resid.1 = target
      · simp [relsDeleteSteps, h, ih]
      · simp [relsDeleteSteps, h]

theorem collectionPost_flush_once (v : WriteView) (allow : Bool) (req : PostReq)
    (fr : FlushRes) :
    (collectionPostTrace v allow req fr).1.count WEv.flush ≤ 1 := by
  simp only [collectionPostTrace]
  by_cases h1 : (!allow && req.hasId) = true
  · rw [if_pos h1]; simp
  rw [if_neg h1]
  by_cases h2 : req.dataType ≠ v.collectionName
  · rw [if_pos h2]; simp
  rw [if_neg h2]
  have h0 : (postRelSteps v req.relNames).1.count WEv.flush = 0 :=
    List.count_eq_zero.mpr (postRelSteps_no_flush v req.relNames)
  by_cases hr : (postRelSteps v req.relNames).2 = true
  · rw [if_pos hr]
    cases fr <;> simp [List.count_append, h0]
  · rw [if_neg hr]
    simp [List.count_append, h0]

theorem deleteOp_flush_once (coll : String) (rows : List String) (reqId : String)
    (fr : FlushRes) :
    (deleteOp coll rows reqId fr).trace.count WEv.flush ≤ 1 := by
  by_cases h : reqId ∈ rows
  · cases fr <;> simp [deleteOp, h]
  · simp [deleteOp, h]

theorem relationshipsPost_flush_once (v : WriteView) (relname : String)
    (data : List Ident) (fr : FlushRes) :
    (relationships_post v relname data fr).1.count WEv.flush ≤ 1 := by
  cases hl : v.relationships.lookup relname with
  | none => simp [relationships_post, hl]
  | some rel =>
      by_cases hdir : rel.dir = RelDir.toOne
      · simp [relationships_post, hl, hdir]
      · have h0 : (residTypeSteps rel.target data).1.count WEv.flush = 0 :=
          List.count_eq_zero.mpr (residTypeSteps_no_flush rel.target data)
        by_cases hok : (residTypeSteps rel.target data).2 = true
        · cases fr <;> simp [relationships_post, hl, hdir, hok, List.count_append, h0]
        · simp [relationships_post, hl, hdir, hok, h0]

theorem relationshipsPatch_flush_once (v : WriteView) (relname : String)
    (data : List Ident) (fr : FlushRes) :
    (relationships_patch v relname (RelValue.many data) fr).1.count WEv.flush ≤ 1 := by
  cases hl : v.relationships.lookup relname with
  | none => simp [relationships_patch, hl]
  | some rel =>
      by_cases hdir : rel.dir = RelDir.toOne
      · simp [relationships_patch, hl, hdir]
      · have h0 : (residTypeSteps rel.target data).1.count WEv.flush = 0 :=
          List.count_eq_zero.mpr (residTypeSteps_no_flush rel.target data)
        by_cases hok : (residTypeSteps rel.target data).2 = true
        · cases fr <;> simp [relationships_patch, hl, hdir, hok, List.count_append, h0]
        · simp [relationships_patch, hl, hdir, hok, h0]

theorem relationshipsDelete_flush_once (v : WriteView) (relname : String)
    (data : List Ident) (fr : FlushRes) :
    (relationships_delete v relname data fr).1.count WEv.flush ≤ 1 := by
  cases hl : v.relationships.lookup relname with
  | none => simp [relationships_delete, hl]
  | some rel =>
      by_cases hdir : rel.dir = RelDir.toOne
      · simp [relationships_delete, hl, hdir]
      · have h0 : (relsDeleteSteps rel.target data).1.count WEv.flush = 0 :=
          List.count_eq_zero.mpr (relsDeleteSteps_no_flush rel.target data)
        by_cases hok : (relsDeleteSteps rel.target data).2 = true
        · cases fr <;> simp [relationships_delete, hl, hdir, hok, List.count_append, h0]
        · simp [relationships_delete, hl, hdir, hok, h0]

/-- C6 counterexample: a create (collection POST) whose flush reports an
integrity violation surfaces it as HTTPConflict — status 409, not the 424
the claim asserts for every write operation. -/
theorem C6_counterexample :
    (collectionPostTrace { collectionName := "posts", relationships := [] } true
        { hasId := false, dataType := "posts", relNames := [] }
        (FlushRes.integrityError "duplicate key")).2 =
      Except.error { status := 409, detail := "duplicate key" } ∧
    (409 : Nat) ≠ 424 := by
  constructor
  · rfl
  · decide

/-- C6 (amended): a write whose flush reports an integrity-constraint
violation surfaces it exactly once and is never retried (every operation's
trace contains at most one flush, for any flush outcome): DELETE and
relationship POST/PATCH/DELETE map the violation to HTTP 424, but create
(collection POST) maps it to HTTPConflict 409. -/
theorem C6_integrity_errors (v : WriteView) (coll relname reqId m : String)
    (rows : List String) (idlist : List Ident) (allow : Bool) (postReq : PostReq) :
    (WEv.flush ∈ (collectionPostTrace v allow postReq (FlushRes.integrityError m)).1 →
      (collectionPostTrace v allow postReq (FlushRes.integrityError m)).2 =
        Except.error { status := 409, detail := m }) ∧
    (WEv.flush ∈ (deleteOp coll rows reqId (FlushRes.integrityError m)).trace →
      (deleteOp coll rows reqId (FlushRes.integrityError m)).result =
        Except.error { status := 424, detail := m }) ∧
    (WEv.flush ∈ (relationships_post v relname idlist (FlushRes.integrityError m)).1 →
      (relationships_post v relname idlist (FlushRes.integrityError m)).2 =
        Except.error { status := 424, detail := m }) ∧
    (WEv.flush ∈ (relationships_patch v relname (RelValue.many idlist)
        (FlushRes.integrityError m)).1 →
      (relationships_patch v relname (RelValue.many idlist)
        (FlushRes.integrityError m)).2 =
        Except.error { status := 424, detail := m }) ∧
    (WEv.flush ∈ (relationships_delete v relname idlist (FlushRes.integrityError m)).1 →
      (relationships_delete v relname idlist (FlushRes.integrityError m)).2 =
        Except.error { status := 424, detail := m }) ∧
    (∀ fr : FlushRes,
      (collectionPostTrace v allow postReq fr).1.count WEv.flush ≤ 1 ∧
      (deleteOp coll rows reqId fr).trace.count WEv.flush ≤ 1 ∧
      (relationships_post v relname idlist fr).1.count WEv.flush ≤ 1 ∧
      (relationships_patch v relname (RelValue.many idlist) fr).1.count WEv.flush ≤ 1 ∧
      (relationships_delete v relname idlist fr).1.count WEv.flush ≤ 1) := by
  refine ⟨?_, ?_, ?_, ?_, ?_, ?_⟩
  · intro hf
    simp only [collectionPostTrace] at hf ⊢
    by_cases h1 : (!allow && postReq.hasId) = true
    · rw [if_pos h1] at hf; simp at hf
    rw [if_neg h1] at hf ⊢
    by_cases h2 : postReq.dataType ≠ v.collectionName
    · rw [if_pos h2] at hf; simp at hf
    rw [if_neg h2] at hf ⊢
    by_cases hr : (postRelSteps v postReq.relNames).2 = true
    · rw [if_pos hr]
    · rw [if_neg hr] at hf
      exact absurd hf (by simp [postRelSteps_no_flush v postReq.relNames])
  · intro hf
    by_cases h : reqId ∈ rows
    · simp [deleteOp, h]
    · simp [deleteOp, h] at hf
  · intro hf
    cases hl : v.relationships.lookup relname with
    | none => simp [relationships_post, hl] at hf
    | some rel =>
        by_cases hdir : rel.dir = RelDir.toOne
        · simp [relationships_post, hl, hdir] at hf
        · by_cases hok : (residTypeSteps rel.target idlist).2 = true
          · simp [relationships_post, hl, hdir, hok]
          · simp [relationships_post, hl, hdir, hok,
              residTypeSteps_no_flush rel.target idlist] at hf
  · intro hf
    cases hl : v.relationships.lookup relname with
    | none => simp [relationships_patch, hl] at hf
    | some rel =>
        by_cases hdir : rel.dir = RelDir.toOne
        · simp [relationships_patch, hl, hdir] at hf
        · by_cases hok : (residTypeSteps rel.target idlist).2 = true
          · simp [relationships_patch, hl, hdir, hok]
          · simp [relationships_patch, hl, hdir, hok,
              residTypeSteps_no_flush rel.target idlist] at hf
  · intro hf
    cases hl : v.relationships.lookup relname with
    | none => simp [relationships_delete, hl] at hf
    | some rel =>
        by_cases hdir : rel.dir = RelDir.toOne
        · simp [relationships_delete, hl, hdir] at hf
        · by_cases hok : (relsDeleteSteps rel.target idlist).2 = true
          · simp [relationships_delete, hl, hdir, hok]
          · simp [relationships_delete, hl, hdir, hok,
              relsDeleteSteps_no_flush rel.target idlist] at hf
  · intro fr
    exact ⟨collectionPost_flush_once v allow postReq fr,
      deleteOp_flush_once coll rows reqId fr,
      relationshipsPost_flush_once v relname idlist fr,
      relationshipsPatch_flush_once v relname idlist fr,
      relationshipsDelete_flush_once v relname idlist fr⟩

/-- C6 witness: a DELETE of an existing row and a relationship POST of a
well-typed identifier list, each hitting an integrity violation, surface it
as a single 424; the same create hitting one yields 409. -/
theorem C6_integrity_errors_witness :
    (deleteOp "people" ["1"] "1" (FlushRes.integrityError "fk")).result =
      Except.error { status := 424, detail := "fk" } ∧
    (relationships_post
        { collectionName := "posts",
          relationships := [("comments", { target := "comments", dir := RelDir.toMany })] }
        "comments" [("comments", "1")] (FlushRes.integrityError "fk")).2 =
      Except.error { status := 424, detail := "fk" } ∧
    (collectionPostTrace
        { collectionName := "posts",
          relationships := [("comments", { target := "comments", dir := RelDir.toMany })] }
        true { hasId := false, dataType := "posts", relNames := [] }
        (FlushRes.integrityError "fk")).2 =
      Except.error { status := 409, detail := "fk" } ∧
    (deleteOp "people" ["1"] "1" (FlushRes.integrityError "fk")).trace.count WEv.flush ≤ 1 := by
  have h := C6_integrity_errors
    { collectionName := "posts",
      relationships := [("comments", { target := "comments", dir := RelDir.toMany })] }
    "people" "comments" "1" "fk" ["1"] [("comments", "1")] true
    { hasId := false, dataType := "posts", relNames := [] }
  exact ⟨h.2.1 (by decide), h.2.2.1 (by decide), h.1 (by decide), (h.2.2.2.2.2 _).2.1⟩

/-! ### C1 — deduplication of included objects -/

/-- The invariant of the per-request included dictionary: its `(type, id)`
keys are pairwise distinct, and every stored object carries the type and id
it is keyed under. -/
def IncludedInv (m : List (Ident × SObj)) : Prop :=
  (m.map Prod.fst).Nodup ∧ ∀ p ∈ m, p.1 = (p.2.rtype, p.2.id)

theorem includedInv_nil : IncludedInv [] := ⟨List.nodup_nil, by simp⟩

theorem includedInv_insert {m : List (Ident × SObj)} (h : IncludedInv m)
    {t i : String} {v : SObj} (hv : v.rtype = t ∧ v.id = i) :
    IncludedInv (dictInsert (t, i) v m) := by
  unfold dictInsert
  by_cases hc : ((m.map Prod.fst).contains (t, i)) = true
  · rw [if_pos hc]
    constructor
    · have hkeys : (m.map (fun p => if p.1 = (t, i) then ((t, i), v) else p)).map Prod.fst
          = m.map Prod.fst := by
        rw [List.map_map]
        refine List.map_congr_left ?_
        intro p _
        by_cases hp : p.1 = (t, i)
        · simp [hp]
        · simp [hp]
      rw [hkeys]
      exact h.1
    · intro p hp
      rw [List.mem_map] at hp
      obtain ⟨q, hq, rfl⟩ := hp
      by_cases hq1 : q.1 = (t, i)
      · rw [if_pos hq1]
        simp [hv.1, hv.2]
      · rw [if_neg hq1]
        exact h.2 q hq
  · rw [if_neg hc]
    have hne : (t, i) ∉ m.map Prod.fst := by
      intro hmem
      exact hc (by simpa using hmem)
    constructor
    · rw [List.map_append, List.nodup_append]
      refine ⟨h.1, by simp, ?_⟩
      intro a ha hb
      simp at hb
      subst hb
      exact hne ha
    · intro p hp
      rcases List.mem_append.mp hp with hp | hp
      · exact h.2 p hp
      · simp at hp
        subst hp
        simp [hv.1, hv.2]

/-- The property needed of the recursive serialisation call: it preserves
the included-dictionary invariant and returns an object of the requested
type and id. -/
def RecOk (recurse : String → String → List String → SState → SObj × SState) : Prop :=
  ∀ coll itemId path st, IncludedInv st.included →
    IncludedInv ((recurse coll itemId path st).2).included ∧
    (recurse coll itemId path st).1.rtype = coll ∧
    (recurse coll itemId path st).1.id = itemId

theorem serialiseManyRows_inv
    (recurse : String → String → List String → SState → SObj × SState)
    (hrec : RecOk recurse) (target : String) (path : List String) (inc : Bool) :
    ∀ (rows : List String) (st : SState), IncludedInv st.included →
      IncludedInv ((serialiseManyRows recurse target path inc rows st).2).included := by
  intro rows
  induction rows with
  | nil => intro st h; simpa [serialiseManyRows] using h
  | cons rid rest ih =>
      intro st h
      simp only [serialiseManyRows]
      cases inc
      · exact ih st h
      · obtain ⟨hinv, hrt, hid⟩ := hrec target rid path st h
        exact ih _ (includedInv_insert hinv ⟨hrt, hid⟩)

theorem processRel_inv (ctx : SerCtx) (store : Store)
    (recurse : String → String → List String → SState → SObj × SState)
    (hrec : RecOk recurse) (coll itemId : String) (path : List String)
    (key : String) (rel : RelInfo) (st : SState) (h : IncludedInv st.included) :
    IncludedInv ((processRel ctx store recurse coll itemId path key rel st).2).included := by
  simp only [processRel]
  by_cases hskip : (!(requestedRelNames ctx coll).contains key
      && !(requested_include_names ctx.includeParam).contains (joinDot (path ++ [key]))) = true
  · rw [if_pos hskip]
    exact h
  · rw [if_neg hskip]
    cases rel.dir
    · exact serialiseManyRows_inv recurse hrec rel.target (path ++ [key]) _ _ _ h
    · by_cases hinc : (requested_include_names ctx.includeParam).contains
          (joinDot (path ++ [key])) = true
      · rw [if_pos hinc]
        cases hfetch : store.oneFetch coll key itemId rel.target
        · exact h
        · next rid =>
            obtain ⟨hinv, hrt, hid⟩ :=
              hrec rel.target rid (path ++ [key]) { st with queries := st.queries + 1 } h
            exact includedInv_insert hinv ⟨hrt, hid⟩
      · rw [if_neg hinc]
        exact h

theorem serialiseRels_inv (ctx : SerCtx) (store : Store)
    (recurse : String → String → List String → SState → SObj × SState)
    (hrec : RecOk recurse) (coll itemId : String) (path : List String) :
    ∀ (rels : List (String × RelInfo)) (st : SState), IncludedInv st.included →
      IncludedInv ((serialiseRels ctx store recurse coll itemId path rels st).2).included := by
  intro rels
  induction rels with
  | nil => intro st h; simpa [serialiseRels] using h
  | cons kr rest ih =>
      intro st h
      obtain ⟨key, rel⟩ := kr
      exact ih _ (processRel_inv ctx store recurse hrec coll itemId path key rel st h)

theorem serialise_db_item_recOk (ctx : SerCtx) (store : Store) :
    ∀ fuel : Nat, RecOk (fun a b c d => serialise_db_item ctx store fuel a b c d) := by
  intro fuel
  induction fuel with
  | zero =>
      intro coll itemId path st h
      exact ⟨h, rfl, rfl⟩
  | succ n ih =>
      intro coll itemId path st h
      exact ⟨serialiseRels_inv ctx store _ ih coll itemId path (ctx.schemaRels coll) st h,
        rfl, rfl⟩

theorem nodup_filter_length_le_one {α : Type} [DecidableEq α] {l : List α}
    (h : l.Nodup) (a : α) :
    (l.filter (fun x => decide (x = a))).length ≤ 1 := by
  induction l with
  | nil => simp
  | cons b t ih =>
      rw [List.nodup_cons] at h
      by_cases hb : b = a
      · subst hb
        rw [List.filter_cons_of_pos (by simp)]
        have hnil : t.filter (fun x => decide (x = b)) = [] := by
          rw [List.filter_eq_nil_iff]
          intro x hx
          simp only [decide_eq_true_eq]
          intro hxb
          subst hxb
          exact h.1 hx
        rw [hnil]
        simp
      · rw [List.filter_cons_of_neg (by simpa using hb)]
        exact ih h.2

theorem collectionSerialise_inv (ctx : SerCtx) (store : Store) (fuel : Nat)
    (coll : String) :
    ∀ (items : List String) (st : SState), IncludedInv st.included →
      IncludedInv ((collectionSerialise ctx store fuel coll items st).2).included := by
  intro items
  induction items with
  | nil => intro st h; simpa [collectionSerialise] using h
  | cons i rest ih =>
      intro st h
      exact ih _ ((serialise_db_item_recOk ctx store fuel coll i [] st h).1)

/-- C1: over a whole collection read, the shared included dictionary maps
each `(type, id)` pair to at most one resource object, so the response's
`included` array lists each distinct `(type, id)` reached by the include
paths exactly once, no matter how many include paths or parent rows reach
the same pair. -/
theorem C1_included_unique (ctx : SerCtx) (store : Store) (fuel : Nat)
    (coll : String) (items : List String) :
    ((((collection_return ctx store fuel coll items).included).getD []).map
        (fun o => (o.rtype, o.id))).Nodup ∧
    (∀ t i : String,
      (((((collection_return ctx store fuel coll items).included).getD []).map
          (fun o => (o.rtype, o.id))).filter
        (fun q => decide (q = (t, i)))).length ≤ 1) := by
  by_cases hreq : requested_include_names ctx.includeParam = []
  · simp [collection_return, hreq]
  · have hdoc : (collection_return ctx store fuel coll items).included
        = some (((collectionSerialise ctx store fuel coll items
            { included := [], queries := 0 }).2).included.map Prod.snd) := by
      simp [collection_return, hreq]
    have hinv := collectionSerialise_inv ctx store fuel coll items
      { included := [], queries := 0 } includedInv_nil
    rw [hdoc]
    simp only [Option.getD_some]
    rw [List.map_map]
    have hmapeq : (((collectionSerialise ctx store fuel coll items
          { included := [], queries := 0 }).2).included).map
            ((fun o => (o.rtype, o.id)) ∘ Prod.snd)
        = (((collectionSerialise ctx store fuel coll items
          { included := [], queries := 0 }).2).included).map Prod.fst := by
      refine List.map_congr_left ?_
      intro p hp
      exact (hinv.2 p hp).symm
    rw [hmapeq]
    exact ⟨hinv.1, fun t i => nodup_filter_length_le_one hinv.1 (t, i)⟩

/-! ### C9 — to-one relationship serialisation -/

/-- A request/schema for one `posts` row with a to-one `author`
relationship targeting `people`, with `author` both a requested field and a
requested include. -/
def exCtx9 : SerCtx :=
  { schemaRels := fun c =>
      if c = "posts" then [("author", { target := "people", dir := RelDir.toOne })] else []
  , attributeNames := fun _ => []
  , fieldsParam := fun _ => none
  , includeParam := some "author"
  , pageParams := fun _ => none
  , defaultLimit := 10
  , maxLimit := 100 }

/-- A store where post `p1` has author foreign key `1` and person `1`
exists. -/
def exStore9 : Store :=
  { rows := fun c => if c = "people" then ["1"] else ["p1"]
  , attr := fun _ _ _ => none
  , manyRelated := fun _ _ _ => []
  , oneFk := fun c k _ => if c = "posts" && k = "author" then some "1" else none }

/-- A recursive-serialisation stand-in returning a bare object; the data
member's absence in the to-one included branch holds for any recursion. -/
def exRec9 : String → String → List String → SState → SObj × SState :=
  fun t i _ st =>
    ({ rtype := t, id := i, attributes := none, relationships := none, meta := none }, st)

/-- C9 counterexample: for an included to-one relationship whose related
row exists, the serialised relationship block is present but its `data`
member is never assigned (absent — not an identifier, not a list, not
null), refuting the claim that in all cases `data` is an identifier, a list
of identifiers, or null; the related object is only side-loaded into the
included dictionary. -/
theorem C9_counterexample :
    (processRel exCtx9 exStore9 exRec9 "posts" "p1" [] "author"
        { target := "people", dir := RelDir.toOne }
        { included := [], queries := 0 }).1.isSome = true ∧
    ((processRel exCtx9 exStore9 exRec9 "posts" "p1" [] "author"
        { target := "people", dir := RelDir.toOne }
        { included := [], queries := 0 }).1.bind RelBlock.data) = none ∧
    ((processRel exCtx9 exStore9 exRec9 "posts" "p1" [] "author"
        { target := "people", dir := RelDir.toOne }
        { included := [], queries := 0 }).2.included.map Prod.fst) = [("people", "1")] := by
  refine ⟨?_, ?_, ?_⟩
  · decide
  · decide
  · decide

/-- C9 (amended): for a requested to-one relationship: if its path is not a
requested include, `data` is a resource identifier built from the locally
stored foreign key (or null when that value is absent) with no additional
query executed and the included set untouched; if the path is a requested
include, one query is executed and either no row exists and `data` is set
to null, or the single related row is recursively serialised into the
included set and the block's `data` member is left unset — so `data`, when
present, is an identifier, a list of identifiers, or null, but it is absent
in the included-and-found case. -/
theorem C9_toOne_serialisation (ctx : SerCtx) (store : Store)
    (recurse : String → String → List String → SState → SObj × SState)
    (coll itemId target key : String) (includePath : List String) (st : SState)
    (hreq : (requestedRelNames ctx coll).contains key = true) :
    ((requested_include_names ctx.includeParam).contains
        (joinDot (includePath ++ [key])) = false →
      processRel ctx store recurse coll itemId includePath key
          { target := target, dir := RelDir.toOne } st =
        (some { direction := RelDir.toOne, resultsLimit := none, resultsAvailable := none,
                resultsReturned := none,
                data := some
                  (match store.oneFk coll key itemId with
                   | none => RelData.null
                   | some fk => RelData.ident (target, fk)) }, st)) ∧
    ((requested_include_names ctx.includeParam).contains
        (joinDot (includePath ++ [key])) = true →
      store.oneFetch coll key itemId target = none →
      processRel ctx store recurse coll itemId includePath key
          { target := target, dir := RelDir.toOne } st =
        (some { direction := RelDir.toOne, resultsLimit := none, resultsAvailable := none,
                resultsReturned := none, data := some RelData.null },
         { st with queries := st.queries + 1 })) ∧
    (∀ rid : String,
      (requested_include_names ctx.includeParam).contains
        (joinDot (includePath ++ [key])) = true →
      store.oneFetch coll key itemId target = some rid →
      processRel ctx store recurse coll itemId includePath key
          { target := target, dir := RelDir.toOne } st =
        (some { direction := RelDir.toOne, resultsLimit := none, resultsAvailable := none,
                resultsReturned := none, data := none },
         { (recurse target rid (includePath ++ [key])
              { st with queries := st.queries + 1 }).2 with
             included := dictInsert (target, rid)
               (recurse target rid (includePath ++ [key])
                 { st with queries := st.queries + 1 }).1
               (recurse target rid (includePath ++ [key])
                 { st with queries := st.queries + 1 }).2.included })) := by
  have hreqm : key ∈ requestedRelNames ctx coll := by simpa using hreq
  refine ⟨?_, ?_, ?_⟩
  · intro hninc
    have hnincm : joinDot (includePath ++ [key]) ∉ requested_include_names ctx.includeParam := by
      simpa using hninc
    simp [processRel, hreqm, hnincm]
  · intro hinc hfetch
    have hincm : joinDot (includePath ++ [key]) ∈ requested_include_names ctx.includeParam := by
      simpa using hinc
    simp [processRel, hreqm, hincm, hfetch]
  · intro rid hinc hfetch
    have hincm : joinDot (includePath ++ [key]) ∈ requested_include_names ctx.includeParam := by
      simpa using hinc
    simp [processRel, hreqm, hincm, hfetch]

/-- C9 witness: in the concrete schema/store above, the included-and-found
case yields a block with no `data` member and side-loads person `1` after
one query. -/
theorem C9_toOne_serialisation_witness :
    (requestedRelNames exCtx9 "posts").contains "author" = true ∧
    processRel exCtx9 exStore9 exRec9 "posts" "p1" [] "author"
        { target := "people", dir := RelDir.toOne } { included := [], queries := 0 } =
      (some { direction := RelDir.toOne, resultsLimit := none, resultsAvailable := none,
              resultsReturned := none, data := none },
       { included := [(("people", "1"),
           { rtype := "people", id := "1", attributes := none, relationships := none,
             meta := none })], queries := 1 }) := by
  refine ⟨by decide, ?_⟩
  have h := (C9_toOne_serialisation exCtx9 exStore9 exRec9 "posts" "p1" "people" "author" []
    { included := [], queries := 0 } (by decide)).2.2 "1" (by decide) (by decide)
  exact h.trans (by decide)

/-! ### C7 — include-path validation -/

theorem chainColl_append (schema : String → String → Option String) :
    ∀ (l1 l2 : List String) (c : String),
      chainColl schema c (l1 ++ l2) =
        (chainColl schema c l1).bind (fun c' => chainColl schema c' l2) := by
  intro l1
  induction l1 with
  | nil => intro l2 c; simp [chainColl]
  | cons n rest ih =>
      intro l2 c
      cases hs : schema c n <;> simp [chainColl, hs, ih]

theorem chainColl_append_none (schema : String → String → Option String)
    (l1 l2 : List String) (c : String) (h : chainColl schema c l1 = none) :
    chainColl schema c (l1 ++ l2) = none := by
  rw [chainColl_append, h]
  rfl

/-- Re-indexing the invalid prefixes of the walk across a newly tainted
segment: the tainted prefix itself plus the invalid extensions. -/
theorem badSetShift (schema : String → String → Option String) (c0 : String)
    (pre : List String) (name : String) (rest : List String) (bad : List String)
    (q : String) (hnone' : chainColl schema c0 (pre ++ [name]) = none) :
    ((q = joinDot (pre ++ [name]) ∨ q ∈ bad) ∨
      ∃ k, k + 1 ≤ rest.length ∧ q = joinDot ((pre ++ [name]) ++ rest.take (k + 1)) ∧
        chainColl schema c0 ((pre ++ [name]) ++ rest.take (k + 1)) = none) ↔
      (q ∈ bad ∨ ∃ k, k + 1 ≤ (name :: rest).length ∧
        q = joinDot (pre ++ (name :: rest).take (k + 1)) ∧
        chainColl schema c0 (pre ++ (name :: rest).take (k + 1)) = none) := by
  constructor
  · rintro ((rfl | hq) | ⟨k, hk, hq, hc⟩)
    · refine Or.inr ⟨0, by simp, ?_, ?_⟩
      · simp [List.take_succ_cons]
      · simpa [List.take_succ_cons] using hnone'
    · exact Or.inl hq
    · refine Or.inr ⟨k + 1, ?_, ?_, ?_⟩
      · simpa [List.length_cons] using Nat.succ_le_succ hk
      · simpa [List.take_succ_cons, List.append_assoc, List.singleton_append] using hq
      · simpa [List.take_succ_cons, List.append_assoc, List.singleton_append] using hc
  · rintro (hq | ⟨k, hk, hq, hc⟩)
    · exact Or.inl (Or.inr hq)
    · cases k with
      | zero => exact Or.inl (Or.inl (by simpa [List.take_succ_cons] using hq))
      | succ k' =>
          refine Or.inr ⟨k', ?_, ?_, ?_⟩
          · have := hk
            simp only [List.length_cons] at this
            omega
          · simpa [List.take_succ_cons, List.append_assoc, List.singleton_append] using hq
          · simpa [List.take_succ_cons, List.append_assoc, List.singleton_append] using hc

/-- Re-indexing the invalid prefixes of the walk across a valid segment:
the one-segment prefix resolves, so only the longer extensions remain. -/
theorem validSetShift (schema : String → String → Option String) (c0 : String)
    (pre : List String) (name : String) (rest : List String) (bad : List String)
    (q : String) (t : String)
    (hsome' : chainColl schema c0 (pre ++ [name]) = some t) :
    (q ∈ bad ∨
      ∃ k, k + 1 ≤ rest.length ∧ q = joinDot ((pre ++ [name]) ++ rest.take (k + 1)) ∧
        chainColl schema c0 ((pre ++ [name]) ++ rest.take (k + 1)) = none) ↔
      (q ∈ bad ∨ ∃ k, k + 1 ≤ (name :: rest).length ∧
        q = joinDot (pre ++ (name :: rest).take (k + 1)) ∧
        chainColl schema c0 (pre ++ (name :: rest).take (k + 1)) = none) := by
  constructor
  · rintro (hq | ⟨k, hk, hq, hc⟩)
    · exact Or.inl hq
    · refine Or.inr ⟨k + 1, ?_, ?_, ?_⟩
      · simpa [List.length_cons] using Nat.succ_le_succ hk
      · simpa [List.take_succ_cons, List.append_assoc, List.singleton_append] using hq
      · simpa [List.take_succ_cons, List.append_assoc, List.singleton_append] using hc
  · rintro (hq | ⟨k, hk, hq, hc⟩)
    · exact Or.inl hq
    · cases k with
      | zero =>
          exfalso
          have hcc : chainColl schema c0 (pre ++ [name]) = none := by
            simpa [List.take_succ_cons] using hc
          rw [hsome'] at hcc
          exact Option.noConfusion hcc
      | succ k' =>
          refine Or.inr ⟨k', ?_, ?_, ?_⟩
          · have := hk
            simp only [List.length_cons] at this
            omega
          · simpa [List.take_succ_cons, List.append_assoc, List.singleton_append] using hq
          · simpa [List.take_succ_cons, List.append_assoc, List.singleton_append] using hc

/-- Membership in the accumulated bad set of the `bad_include_paths` walk
along the segments of one dotted path: exactly the initial entries together
with every prefix of the walked path whose relationship chain does not
resolve. -/
theorem includeWalk_bad_mem (schema : String → String → Option String) (c0 : String)
    (q : String) :
    ∀ (parts pre : List String) (c : String) (tainted : Bool) (bad : List String),
      (tainted = false → chainColl schema c0 pre = some c) →
      (tainted = true → chainColl schema c0 pre = none) →
      (q ∈ ((parts.foldl (includeStep schema)
          { curname := pre, curcoll := c, tainted := tainted, bad := bad }).bad) ↔
        q ∈ bad ∨ ∃ k, k + 1 ≤ parts.length ∧
          q = joinDot (pre ++ parts.take (k + 1)) ∧
          chainColl schema c0 (pre ++ parts.take (k + 1)) = none) := by
  intro parts
  induction parts with
  | nil =>
      intro pre c tainted bad _ _
      simp
  | cons name rest ih =>
      intro pre c tainted bad hfalse htrue
      rw [List.foldl_cons]
      cases tainted with
      | true =>
          have hnone := htrue rfl
          have hnone' : chainColl schema c0 (pre ++ [name]) = none :=
            chainColl_append_none schema pre [name] c0 hnone
          have hstep : includeStep schema
              { curname := pre, curcoll := c, tainted := true, bad := bad } name =
              { curname := pre ++ [name], curcoll := c, tainted := true,
                bad := setInsert (joinDot (pre ++ [name])) bad } := by
            simp [includeStep]
          rw [hstep]
          rw [ih (pre ++ [name]) c true (setInsert (joinDot (pre ++ [name])) bad)
            (fun h => Bool.noConfusion h) (fun _ => hnone')]
          rw [mem_setInsert]
          exact badSetShift schema c0 pre name rest bad q hnone'
      | false =>
          have hsome := hfalse rfl
          cases hs : schema c name with
          | some t =>
              have hsome' : chainColl schema c0 (pre ++ [name]) = some t := by
                rw [chainColl_append schema pre [name] c0, hsome]
                simp [chainColl, hs]
              have hstep : includeStep schema
                  { curname := pre, curcoll := c, tainted := false, bad := bad } name =
                  { curname := pre ++ [name], curcoll := t, tainted := false, bad := bad } := by
                simp [includeStep, hs]
              rw [hstep]
              rw [ih (pre ++ [name]) t false bad (fun _ => hsome')
                (fun h => Bool.noConfusion h)]
              exact validSetShift schema c0 pre name rest bad q t hsome'
          | none =>
              have hnone' : chainColl schema c0 (pre ++ [name]) = none := by
                rw [chainColl_append schema pre [name] c0, hsome]
                simp [chainColl, hs]
              have hstep : includeStep schema
                  { curname := pre, curcoll := c, tainted := false, bad := bad } name =
                  { curname := pre ++ [name], curcoll := c, tainted := true,
                    bad := setInsert (joinDot (pre ++ [name])) bad } := by
                simp [includeStep, hs]
              rw [hstep]
              rw [ih (pre ++ [name]) c true (setInsert (joinDot (pre ++ [name])) bad)
                (fun h => Bool.noConfusion h) (fun _ => hnone')]
              rw [mem_setInsert]
              exact badSetShift schema c0 pre name rest bad q hnone'

/-- The invalid prefixes of one comma-separated include path. -/
theorem badIncludePaths_single (schema : String → String → Option String)
    (coll : String) (q i : String) (bad : List String) :
    q ∈ ((splitOnChar '.' i).foldl (includeStep schema)
        { curname := [], curcoll := coll, tainted := false, bad := bad }).bad ↔
      q ∈ bad ∨ ∃ k, k + 1 ≤ (splitOnChar '.' i).length ∧
        q = joinDot ((splitOnChar '.' i).take (k + 1)) ∧
        chainColl schema coll ((splitOnChar '.' i).take (k + 1)) = none := by
  have h := includeWalk_bad_mem schema coll q (splitOnChar '.' i) [] coll false bad
    (fun _ => rfl) (fun h => Bool.noConfusion h)
  simpa using h

/-- C7: every requested include path is validated segment by segment
against the declared relationship graph: the bad set contains exactly those
dotted prefixes of requested paths whose relationship chain does not
resolve (every prefix extending beyond an undeclared segment is collected
as its own entry), and whenever the bad set is nonempty the whole request
is aborted with HTTP 400 before the view method runs, never partially
succeeding. -/
theorem C7_include_validation {α : Type} (schema : String → String → Option String)
    (coll : String) (p : String) (q : String) (handler : Unit → α) :
    (q ∈ bad_include_paths schema coll (some p) ↔
      ∃ i ∈ splitOnChar ',' p, ∃ k, k + 1 ≤ (splitOnChar '.' i).length ∧
        q = joinDot ((splitOnChar '.' i).take (k + 1)) ∧
        chainColl schema coll ((splitOnChar '.' i).take (k + 1)) = none) ∧
    (bad_include_paths schema coll (some p) ≠ [] →
      jsonapiView false false schema coll (some p) handler =
        Except.error { status := 400, detail := "Bad include paths" }) := by
  constructor
  · have hgen : ∀ (paths : List String) (bad : List String),
        q ∈ paths.foldl
          (fun b i => ((splitOnChar '.' i).foldl (includeStep schema)
            { curname := [], curcoll := coll, tainted := false, bad := b }).bad) bad ↔
          q ∈ bad ∨ ∃ i ∈ paths, ∃ k, k + 1 ≤ (splitOnChar '.' i).length ∧
            q = joinDot ((splitOnChar '.' i).take (k + 1)) ∧
            chainColl schema coll ((splitOnChar '.' i).take (k + 1)) = none := by
      intro paths
      induction paths with
      | nil => intro bad; simp
      | cons i rest ih =>
          intro bad
          rw [List.foldl_cons, ih, badIncludePaths_single schema coll q i bad]
          simp only [List.mem_cons]
          constructor
          · rintro ((hq | hp) | ⟨i', hi', hp⟩)
            · exact Or.inl hq
            · exact Or.inr ⟨i, Or.inl rfl, hp⟩
            · exact Or.inr ⟨i', Or.inr hi', hp⟩
          · rintro (hq | ⟨i', hi' | hi', hp⟩)
            · exact Or.inl (Or.inl hq)
            · subst hi'
              exact Or.inl (Or.inr hp)
            · exact Or.inr ⟨i', hi', hp⟩
    have h := hgen (splitOnChar ',' p) []
    simpa [bad_include_paths] using h
  · intro h
    simp [jsonapiView, h]

/-- An example relationship graph: posts have an author (people) and
comments; comments have an author. -/
def exSchema7 : String → String → Option String :=
  fun c r =>
    if c = "posts" && r = "author" then some "people"
    else if c = "posts" && r = "comments" then some "comments"
    else if c = "comments" && r = "author" then some "people"
    else none

/-- C7 witness: `include=author,comments.bogus.author` collects
`comments.bogus` (first undeclared segment) and `comments.bogus.author` as
bad entries, and the whole request is rejected with HTTP 400. -/
theorem C7_include_validation_witness :
    "comments.bogus" ∈
      bad_include_paths exSchema7 "posts" (some "author,comments.bogus.author") ∧
    jsonapiView false false exSchema7 "posts" (some "author,comments.bogus.author")
        (fun _ => (0 : Nat)) =
      Except.error { status := 400, detail := "Bad include paths" } := by
  have h := C7_include_validation exSchema7 "posts" "author,comments.bogus.author"
    "comments.bogus" (fun _ => (0 : Nat))
  exact ⟨by decide, h.2 (by decide)⟩

end PJapi
